import Mathlib

/-!
# hipLaunchByPtr: fat-binary walker, kernel registry and launch staging

A shallow embedding of `lib/src/hipLaunchByPtr.cpp`.

* The three process-wide pointers `hipi_Global`, `hipi_Ldata`, `hipi_Kernels` and the flag
  `hipi_EnableDebug` form the `State`; every entry point is a function of the state.
* The structure types, `HIP_MAX_KERNELS`, `HIP_MAX_STREAMS`, `VALCHECK` and the status codes
  are declared in the header `hipLaunchByPtr.h`. The constants are the fields of `Constants`.
  The structures carry the fields the code accesses; a field whose C type is declared only in
  the header holds a natural number of any size, memory is looked at through typed views
  (`Memory`), and the capacity of an array is the length of the list that models it.
* Values whose C type is fixed by the code itself are reduced explicitly: `uintptr_t` cursor
  arithmetic modulo `2 ^ 64`, the store through `unsigned * objsz` modulo `2 ^ 32`, the
  `int` copies of the grid dimensions, the conversion of the grid, block and shared-memory
  arguments to the `unsigned int` parameters of `hipModuleLaunchKernel`.
* The loads of `hipSetupArgument` at its argument pointer (the `size` bytes copied, the eight
  bytes of `*arg`) are defined only where `Memory.readable` holds.
* The GPU runtime (`hipInit`, `hipModuleLoadData`, ...) is the `Driver`, a record of
  functions; every call made to it is recorded in order.
* Text written to `hipi_dbgs()` is recorded as a list of `LogItem`.
* Dereferencing a null global, or indexing outside an allocation, is `Result.undefined`.
-/

namespace HipLaunchByPtr

/-! ## Machine arithmetic -/

/-- Sum of a `uintptr_t` and an unsigned offset on the 64-bit target. -/
def ptrAdd (p n : Nat) : Nat := (p + n) % 2 ^ 64

/-- Conversion of an unsigned value to `unsigned` (32 bits). -/
def toUnsigned (n : Nat) : Nat := n % 2 ^ 32

/-- Conversion of a 32-bit unsigned value to `int`. -/
def toInt (n : Nat) : Int :=
  if n % 2 ^ 32 < 2 ^ 31 then ((n % 2 ^ 32 : Nat) : Int) else ((n % 2 ^ 32 : Nat) : Int) - 2 ^ 32

/-- Conversion of an integer to `unsigned` (32 bits). -/
def intToUnsigned (i : Int) : Nat := (i % 2 ^ 32).toNat

/-! ## Output and effects -/

/-- One item streamed into `hipi_dbgs()` with `<<`. -/
inductive LogItem where
  | text (s : String)
  | num (n : Int)
  | hex (n : Int)
  | cstr (addr : Nat)
  | errorString (status : Nat)
  | agent_name
  | indeterminate
  deriving DecidableEq, Repr

/-- The type `dim3` of the HIP runtime: three unsigned 32-bit components. They are held as
natural numbers and reduced where the code converts them. -/
structure dim3 where
  x : Nat
  y : Nat
  z : Nat
  deriving DecidableEq, Repr

/-- An entry of the `config` array handed over as the `extra` argument of a launch. -/
inductive ConfigItem where
  | HIP_LAUNCH_PARAM_BUFFER_POINTER
  | HIP_LAUNCH_PARAM_BUFFER_SIZE
  | HIP_LAUNCH_PARAM_END
  | argstruct (bytes : List Nat)
  | sizeRef (argstruct_size : Nat)
  deriving DecidableEq, Repr

/-- The arguments of one call of `hipModuleLaunchKernel`, as the runtime receives them: the
grid, block and shared-memory parameters of that function are `unsigned int`. -/
structure LaunchRequest where
  f : Nat
  gridDimX : Nat
  gridDimY : Nat
  gridDimZ : Nat
  blockDimX : Nat
  blockDimY : Nat
  blockDimZ : Nat
  sharedMemBytes : Nat
  stream : Nat
  kernelParams : Nat
  extra : List ConfigItem
  deriving DecidableEq, Repr

/-- A call that leaves the translation unit: the GPU runtime and the allocator. -/
inductive Effect where
  | hipInit (flags : Nat)
  | hipDeviceGet (ordinal : Nat)
  | hipCtxCreate (flags device : Nat)
  | hipGetDeviceProperties (device : Nat)
  | hipModuleLoadData (image : Nat)
  | hipModuleGetFunction (hmod kname : Nat)
  | hipModuleLaunchKernel (req : LaunchRequest)
  | hipDeviceSynchronize
  | callocGlobal
  | callocLdata
  | mallocKernels (entries : Nat)
  | freeGlobal
  deriving DecidableEq, Repr

/-- Status codes of the HIP runtime; `hipSuccess` is zero. -/
abbrev hipError_t := Nat

/-- The success status of the HIP runtime. -/
def hipSuccess : hipError_t := 0

/-- The external GPU runtime, consumed through its results only. -/
structure Driver where
  hipInit : Nat → hipError_t
  hipDeviceGet : Nat → hipError_t × Nat
  hipCtxCreate : Nat → Nat → hipError_t × Nat
  hipGetDeviceProperties : Nat → hipError_t × Int
  hipModuleLoadData : Nat → hipError_t × Nat
  hipModuleGetFunction : Nat → Nat → hipError_t × Nat
  hipModuleLaunchKernel : LaunchRequest → hipError_t

/-- Constants declared in `hipLaunchByPtr.h`. -/
structure Constants where
  HIPBYPTR_SUCCESS : Nat
  HIPBYPTR_FAIL : Nat
  HIP_MAX_STREAMS : Nat
  HIP_MAX_KERNELS : Nat
  argstructCapacity : Nat
  VALCHECK : Nat

/-! ## Data model -/

/-- The type `hipi_fbwrapper` of `hipLaunchByPtr.h`, with the fields the walker reads: magic,
version and the pointer to the fat-binary header. -/
structure hipi_fbwrapper where
  magic : Nat
  version : Nat
  binary : Nat
  deriving DecidableEq, Repr

/-- The type `hipi_fbheader` of `hipLaunchByPtr.h`, with the fields the walker reads. -/
structure hipi_fbheader where
  magic : Nat
  version : Nat
  headerSize : Nat
  fatSize : Nat
  deriving DecidableEq, Repr

/-- The type `hipi_partheader` of `hipLaunchByPtr.h`, with the fields the walker reads. -/
structure hipi_partheader where
  headerSize : Nat
  partSize : Nat
  subarch : Nat
  deriving DecidableEq, Repr

/-- Host memory seen through the three structure types, as `unsigned` words and as bytes.
`readable` tells which byte addresses may be loaded. The loads of the walker (the headers of
the blob and, with the debug flag set, the leading word of each part, recorded in
`Walk.peeks`) are taken to be readable; the loads at the argument pointer of
`hipSetupArgument` are checked against it. -/
structure Memory where
  fbwrapper : Nat → hipi_fbwrapper
  fbheader : Nat → hipi_fbheader
  partheader : Nat → hipi_partheader
  word : Nat → Nat
  byte : Nat → Nat
  readable : Nat → Bool

/-- The type `hipi_kernel_s` of `hipLaunchByPtr.h`: one entry of the kernel table, with the
nine fields `__hipRegisterFunction` writes. Pointers are addresses. -/
structure hipi_kernel_s where
  khaddr : Nat
  host_name : Nat
  kernel_name : Nat
  thread_limit : Nat
  tid : Nat
  bid : Nat
  bDim : Nat
  gDim : Nat
  wSize : Nat
  deriving DecidableEq, Repr

/-- The type `hipi_launchdata_s` of `hipLaunchByPtr.h`: the launch staging buffer.
`argstruct` is the byte buffer, as long as its capacity. -/
structure hipi_launchdata_s where
  gridDim : dim3
  blockDim : dim3
  smsize : Int
  stream : Nat
  argstruct : List Nat
  argstructsize : Nat
  deriving DecidableEq, Repr

/-- The type `hipi_global_s` of `hipLaunchByPtr.h`: the global runtime context, with the
fields the code accesses. -/
structure hipi_global_s where
  kernel_count : Nat
  hip_device : Nat
  hip_context : Nat
  hip_module : Nat
  syncq_len : Nat
  streamq_len : List Nat
  deriving DecidableEq, Repr

/-- The globals of the translation unit; `none` is a null pointer. -/
structure State where
  hipi_EnableDebug : Bool
  hipi_Global : Option hipi_global_s
  hipi_Ldata : Option hipi_launchdata_s
  hipi_Kernels : Option (List hipi_kernel_s)
  deriving DecidableEq, Repr

/-! ## Results of a call -/

/-- How a call ends: it returns, it calls `exit`, it has no defined behaviour, or the bound on
loop iterations given to the model ran out. Log and effects are those produced so far. -/
inductive Result (α : Type) where
  | returned (value : α) (log : List LogItem) (effects : List Effect)
  | exited (status : Nat) (log : List LogItem) (effects : List Effect)
  | undefined
  | outOfFuel
  deriving DecidableEq, Repr

/-- Put the log and the effects of what ran before in front of those of a result. -/
def Result.prepend {α : Type} (l : List LogItem) (e : List Effect) : Result α → Result α
  | .returned a l2 e2 => .returned a (l ++ l2) (e ++ e2)
  | .exited st l2 e2 => .exited st (l ++ l2) (e ++ e2)
  | .undefined => .undefined
  | .outOfFuel => .outOfFuel

/-- Sequencing: the log and the effects of the first computation come first. -/
def Result.bind {α β : Type} (r : Result α) (k : α → Result β) : Result β :=
  match r with
  | .returned a l e => (k a).prepend l e
  | .exited st l e => .exited st l e
  | .undefined => .undefined
  | .outOfFuel => .outOfFuel

instance : Monad Result where
  pure a := .returned a [] []
  bind := Result.bind

/-- Stream items into `hipi_dbgs()`. -/
def emit (items : List LogItem) : Result Unit := .returned () items []

/-- Record a call to the runtime or to the allocator. -/
def perform (e : Effect) : Result Unit := .returned () [] [e]

/-- The library function `exit`. -/
def exit {α : Type} (status : Nat) : Result α := .exited status [] []

/-- The macro `DEBUG(X)`: `X` runs only when `hipi_EnableDebug` is set. -/
def DEBUG (hipi_EnableDebug : Bool) (items : List LogItem) : Result Unit :=
  if hipi_EnableDebug then emit items else pure ()

/-- The macro `ErrorCheckHIP(msg, status)`. -/
def ErrorCheckHIP (hipi_EnableDebug : Bool) (msg : String) (status : hipError_t) : Result Unit :=
  if status ≠ hipSuccess then do
    emit [.text msg, .text " failed (", .errorString status, .text ") <", .num status,
      .text ">\n"]
    exit 1
  else
    DEBUG hipi_EnableDebug [.text msg, .text " succeeded.\n"]

/-- The runtime and allocator calls of a result, in order. -/
def Result.effects {α : Type} : Result α → List Effect
  | .returned _ _ e => e
  | .exited _ _ e => e
  | .undefined => []
  | .outOfFuel => []

/-! ## Internal functions -/

/-- The function `hipi_GetSubarch`: returns the status, the updated context and the value
stored through `subarch` (`none` when nothing was stored). -/
def hipi_GetSubarch (c : Constants) (drv : Driver) (dbg : Bool) (glob : hipi_global_s) :
    Result (Nat × hipi_global_s × Option Nat) := do
  let hip_error := drv.hipInit 0
  perform (.hipInit 0)
  ErrorCheckHIP dbg "\"Initializing HIP\"" hip_error
  if hip_error ≠ hipSuccess then
    pure (c.HIPBYPTR_FAIL, glob, none)
  else
    let r := drv.hipDeviceGet 0
    perform (.hipDeviceGet 0)
    let glob := { glob with hip_device := r.2 }
    ErrorCheckHIP dbg "\"HIP device get\"" r.1
    let r := drv.hipCtxCreate 0 glob.hip_device
    perform (.hipCtxCreate 0 glob.hip_device)
    let glob := { glob with hip_context := r.2 }
    ErrorCheckHIP dbg "\"HIP Ctx Create\"" r.1
    let r := drv.hipGetDeviceProperties glob.hip_device
    perform (.hipGetDeviceProperties glob.hip_device)
    ErrorCheckHIP dbg "\"HIP device get property\"" r.1
    DEBUG dbg [.text "sizeof(hipIpcMemHandle_t): ", .text "sizeof", .text "\n"]
    DEBUG dbg [.text "sizeof(hipIpcEventHandle_t): ", .text "sizeof", .text "\n"]
    DEBUG dbg [.text "sizeof(hipDeviceProp_t): ", .text "sizeof", .text "\n"]
    let subarch := intToUnsigned r.2
    DEBUG dbg [.text "Subarch: ", .num subarch, .text "\n"]
    if subarch ≠ 0 then
      pure (c.HIPBYPTR_SUCCESS, glob, some subarch)
    else
      pure (c.HIPBYPTR_FAIL, glob, some subarch)

/-- The loop `for(i=0 ; i<HIP_MAX_STREAMS ; i++) glob->streamq_len[i]=0`. -/
def zeroStreams (streamq_len : List Nat) : Nat → List Nat
  | 0 => streamq_len
  | i + 1 => (zeroStreams streamq_len i).set i 0

/-- The function `hipi_InitGlobal`; `objsz` is `none` when the caller's variable was never
written. -/
def hipi_InitGlobal (c : Constants) (drv : Driver) (dbg : Bool) (glob : hipi_global_s)
    (raw_hsaco : Nat) (objsz : Option Nat) : Result (Nat × hipi_global_s) := do
  let glob := { glob with syncq_len := 0 }
  let glob := { glob with streamq_len := zeroStreams glob.streamq_len c.HIP_MAX_STREAMS }
  let r := drv.hipModuleLoadData raw_hsaco
  perform (.hipModuleLoadData raw_hsaco)
  let glob := { glob with hip_module := r.2 }
  ErrorCheckHIP dbg "\"HIP hipModuleLoadData\"" r.1
  DEBUG dbg [.text "DEBUG: Object size: ",
    (match objsz with | some v => .num v | none => .indeterminate), .text "\n"]
  pure (c.HIPBYPTR_SUCCESS, glob)

/-- The function `hipi_RegisterKernel`. -/
def hipi_RegisterKernel (_global : hipi_global_s) (_kernel : hipi_kernel_s) : Nat := 0

/-- The function `hipi_Launch`. The grid dimensions go through the `int` variables `gridX`,
`gridY`, `gridZ`; these, the block dimensions and `ldata->smsize` are converted to the
`unsigned int` parameters of `hipModuleLaunchKernel` by the call. -/
def hipi_Launch (drv : Driver) (dbg : Bool) (global : hipi_global_s) (kernel : hipi_kernel_s)
    (ldata : hipi_launchdata_s) : Result hipError_t := do
  let gridDim := ldata.gridDim
  let blockDim := ldata.blockDim
  let argstruct_size := ldata.argstructsize
  let config : List ConfigItem :=
    [.HIP_LAUNCH_PARAM_BUFFER_POINTER, .argstruct ldata.argstruct,
     .HIP_LAUNCH_PARAM_BUFFER_SIZE, .sizeRef argstruct_size,
     .HIP_LAUNCH_PARAM_END]
  let r := drv.hipModuleGetFunction global.hip_module kernel.kernel_name
  perform (.hipModuleGetFunction global.hip_module kernel.kernel_name)
  ErrorCheckHIP dbg "\"GetFunction\"" r.1
  let function := r.2
  DEBUG dbg [.text "Function: ", .num function, .text "\n"]
  DEBUG dbg [.text "LAUNCHING KERNEL: ", .cstr kernel.kernel_name, .text "\n"]
  DEBUG dbg [.text "Argument size: ", .num argstruct_size, .text "\n"]
  DEBUG dbg [.text "GRID(", .num gridDim.x, .text ", ", .num gridDim.y, .text ", ",
    .num gridDim.z, .text "\n"]
  DEBUG dbg [.text "BLOCK(", .num blockDim.x, .text ", ", .num blockDim.y, .text ", ",
    .num blockDim.z, .text "\n"]
  let gridX := toInt gridDim.x
  let gridY := toInt gridDim.y
  let gridZ := toInt gridDim.z
  let req : LaunchRequest :=
    { f := function
      gridDimX := intToUnsigned gridX
      gridDimY := intToUnsigned gridY
      gridDimZ := intToUnsigned gridZ
      blockDimX := toUnsigned blockDim.x
      blockDimY := toUnsigned blockDim.y
      blockDimZ := toUnsigned blockDim.z
      sharedMemBytes := intToUnsigned ldata.smsize
      stream := 0
      kernelParams := 0
      extra := config }
  let rc := drv.hipModuleLaunchKernel req
  perform (.hipModuleLaunchKernel req)
  ErrorCheckHIP dbg "\"hipModuleLaunchKernel\"" rc
  perform .hipDeviceSynchronize
  pure rc

/-- The function `hipi_InitDebug`: the new value of `hipi_EnableDebug`, from the value of the
environment variable `HIP_DEBUG` (`none` when it is not set). -/
def hipi_InitDebug (nccl_debug : Option String) : Bool :=
  match nccl_debug with
  | none => false
  | some v => if v = "0" then false else true

/-- The constant `__hipByPtrFatMAGIC2`. -/
def __hipByPtrFatMAGIC2 : Nat := 0x466243b1

/-- The constant `__hipByPtrFatMAGIC3`. -/
def __hipByPtrFatMAGIC3 : Nat := 0xba55ed50

/-- What one run of the walker did. -/
structure Walk where
  hsaco : Nat
  objszStore : Option Nat
  partReads : List Nat
  peeks : List Nat
  log : List LogItem
  deriving DecidableEq, Repr

/-- The walker outcome when the loop is left with `hsaco` still null. -/
def Walk.notFound : Walk :=
  { hsaco := 0, objszStore := none, partReads := [], peeks := [], log := [] }

/-- One more Part Header was visited before the rest of the walk `w`. -/
def Walk.visit (pheader : Nat) (peeks : List Nat) (log : List LogItem) (w : Walk) : Walk :=
  { w with partReads := pheader :: w.partReads, peeks := peeks ++ w.peeks, log := log ++ w.log }

/-- The address read by the first `DEBUG` line of the loop body, when it runs. -/
def walkPeeks (dbg : Bool) (mem : Memory) (pheader : Nat) : List Nat :=
  if dbg then [ptrAdd pheader (mem.partheader pheader).headerSize] else []

/-- The text of the two `DEBUG` lines of the loop body. -/
def walkLog (dbg : Bool) (mem : Memory) (pheader : Nat) : List LogItem :=
  if dbg then
    [.text "part has a leading value of ",
     .num (mem.word (ptrAdd pheader (mem.partheader pheader).headerSize)),
     .text " elfvalue is ", .num 0x464c457f, .text " length: ",
     .num (mem.partheader pheader).partSize, .text "\n",
     .text "Subarch: ", .num (mem.partheader pheader).subarch, .text "\n"]
  else []

/-- The `while (pheader < end)` loop of `hipi_GetObjForSubarch`. The first argument bounds the
number of times the body may run; `none` means the bound was reached. `objsz` tells whether
the out-pointer is non-null. -/
def walkLoop (dbg : Bool) (mem : Memory) (subarch : Nat) (objsz : Bool) (end_ : Nat) :
    Nat → Nat → Option Walk
  | 0, pheader => if pheader < end_ then none else some Walk.notFound
  | fuel + 1, pheader =>
    if pheader < end_ then
      let part := mem.partheader pheader
      if part.subarch = subarch then
        some
          { hsaco := ptrAdd pheader part.headerSize
            objszStore := if objsz then some (toUnsigned part.partSize) else none
            partReads := [pheader]
            peeks := walkPeeks dbg mem pheader
            log := walkLog dbg mem pheader }
      else
        (walkLoop dbg mem subarch objsz end_ fuel
          (ptrAdd (ptrAdd pheader part.headerSize) part.partSize)).map
          (Walk.visit pheader (walkPeeks dbg mem pheader) (walkLog dbg mem pheader))
    else some Walk.notFound

/-- The function `hipi_GetObjForSubarch`; the globals are read (the debug flag) and handed
back. -/
def hipi_GetObjForSubarch (fuel : Nat) (s : State) (mem : Memory) (fatbin : Nat)
    (subarch : Nat) (objsz : Bool) : Option (Walk × State) :=
  let dbg := s.hipi_EnableDebug
  let enter : List LogItem := if dbg then [.text "\n==>DEBUG: hipi_GetObjForSubarch\n"] else []
  let fbwrapper := mem.fbwrapper fatbin
  if fbwrapper.magic ≠ __hipByPtrFatMAGIC2 ∨ fbwrapper.version ≠ 1 then
    some ({ Walk.notFound with
      log := enter ++ (if dbg then [.text "Not a valid fatbin wrapper!\n"] else []) }, s)
  else
    let fbheader := mem.fbheader fbwrapper.binary
    if fbheader.magic ≠ __hipByPtrFatMAGIC3 ∨ fbheader.version ≠ 1 then
      some ({ Walk.notFound with
        log := enter ++ (if dbg then [.text "Not a valid fatbin!\n"] else []) }, s)
    else
      let pheader := ptrAdd fbwrapper.binary fbheader.headerSize
      let end_ := ptrAdd pheader fbheader.fatSize
      match walkLoop dbg mem subarch objsz end_ fuel pheader with
      | none => none
      | some w =>
        some ({ w with
          log := enter ++ w.log ++
            (if dbg then [.text "<==EXIT: hipi_GetObjForSubarch\n"] else []) }, s)

/-! ## Entry points called by compiler-generated code -/

/-- The function `__hipRegisterFatBinary`. `nccl_debug` is the value of `HIP_DEBUG` in the
environment, `junk` the content of the freshly allocated kernel table. -/
def __hipRegisterFatBinary (c : Constants) (drv : Driver) (nccl_debug : Option String)
    (junk : Nat → hipi_kernel_s) (fuel : Nat) (s : State) (mem : Memory) (fatbin : Nat) :
    Result (Nat × State) := do
  let dbg := hipi_InitDebug nccl_debug
  perform .callocGlobal
  let glob : hipi_global_s :=
    { kernel_count := 0, hip_device := 0, hip_context := 0, hip_module := 0, syncq_len := 0,
      streamq_len := List.replicate c.HIP_MAX_STREAMS 0 }
  let glob := { glob with kernel_count := 0 }
  perform .callocLdata
  let ldata : hipi_launchdata_s :=
    { gridDim := ⟨0, 0, 0⟩, blockDim := ⟨0, 0, 0⟩, smsize := 0, stream := 0,
      argstruct := List.replicate c.argstructCapacity 0, argstructsize := 0 }
  let probe ← hipi_GetSubarch c drv dbg glob
  let glob := probe.2.1
  match probe.2.2 with
  | none => .undefined
  | some subarch =>
    let s1 : State :=
      { hipi_EnableDebug := dbg, hipi_Global := some glob, hipi_Ldata := some ldata,
        hipi_Kernels := s.hipi_Kernels }
    match hipi_GetObjForSubarch fuel s1 mem fatbin subarch true with
    | none => .outOfFuel
    | some (w, s2) => do
      emit w.log
      let raw_hsaco := w.hsaco
      let objsz : LogItem := match w.objszStore with | some v => .num v | none => .indeterminate
      DEBUG dbg [.text "\n\n==>DEBUG: __hipRegisterFat Binary \n"]
      DEBUG dbg [.text " Object size: ", objsz, .text ", Subarch: ", .num subarch, .text "\n"]
      if raw_hsaco = 0 then do
        DEBUG dbg [.text "Could not retrieve HSA Code Object for agent ", .agent_name,
          .text "subarch: ", .num subarch, .text "\n"]
        exit 1
      else do
        let r ← hipi_InitGlobal c drv dbg glob raw_hsaco w.objszStore
        perform (.mallocKernels c.HIP_MAX_KERNELS)
        let kernels := (List.range c.HIP_MAX_KERNELS).map junk
        pure (c.VALCHECK, { s2 with hipi_Global := some r.2, hipi_Kernels := some kernels })

/-- The function `__hipRegisterVar`, a stub. -/
def __hipRegisterVar (s : State) (_fatCubinHandle _hostVar _deviceAddress _deviceName : Nat)
    (_ext _size _constant _global : Int) : Result (Unit × State) :=
  pure ((), s)

/-- The function `__hipRegisterFunction`. The store into `hipi_Kernels[KID]` is defined only
inside the allocation. -/
def __hipRegisterFunction (s : State) (_fatbin khaddr host_name kernel_name thread_limit
    tid bid bDim gDim wSize : Nat) : Result (Unit × State) :=
  match s.hipi_Global with
  | none => .undefined
  | some global =>
    let KID := global.kernel_count
    let global := { global with kernel_count := global.kernel_count + 1 }
    match s.hipi_Kernels with
    | none => .undefined
    | some kernels =>
      if KID < kernels.length then do
        let kernel : hipi_kernel_s :=
          { khaddr := khaddr, host_name := host_name, kernel_name := kernel_name,
            thread_limit := thread_limit, tid := tid, bid := bid, bDim := bDim, gDim := gDim,
            wSize := wSize }
        let kernels := kernels.set KID kernel
        DEBUG s.hipi_EnableDebug [.text "\n==>DEBUG: __hipRegisterFunction \n   host_name: ",
          .cstr host_name, .text "\nkernel_name: ", .cstr kernel_name, .text "\n"]
        DEBUG s.hipi_EnableDebug [.text "   tl:", .num thread_limit, .text "KernelId: ",
          .num KID, .text "khaddr: ", .num khaddr, .text "wSize: ", .num wSize, .text "\n"]
        let _rc := hipi_RegisterKernel global kernel
        pure ((), { s with hipi_Global := some global, hipi_Kernels := some kernels })
      else .undefined

/-- The function `hipConfigureCall`. -/
def hipConfigureCall (s : State) (gridDim blockDim : dim3) (smsize : Int) (stream : Nat) :
    Result (hipError_t × State) :=
  match s.hipi_Ldata with
  | none => .undefined
  | some ldata => do
    let ldata := { ldata with gridDim := gridDim }
    let ldata := { ldata with blockDim := blockDim }
    let ldata := { ldata with smsize := smsize }
    let ldata := { ldata with stream := stream }
    let ldata := { ldata with argstructsize := 0 }
    DEBUG s.hipi_EnableDebug [.text "\n==>DEBUG: hipConfigureCall called size=", .num smsize,
      .text " stream: ", .num stream, .text "\n"]
    DEBUG s.hipi_EnableDebug [.text "==>DEBUG:    gridDim  (", .num ldata.gridDim.x, .text ", ",
      .num ldata.gridDim.y, .text ", ", .num ldata.gridDim.z, .text ") \n"]
    DEBUG s.hipi_EnableDebug [.text "==>DEBUG:    blockDim (", .num ldata.blockDim.x,
      .text ", ", .num ldata.blockDim.y, .text ",  ", .num ldata.blockDim.z, .text ") \n"]
    let rc := hipSuccess
    pure (rc, { s with hipi_Ldata := some ldata })

/-- The library function `memcpy` into a buffer: byte `i` of the source goes to index
`offset + i`, for the first `n` bytes. -/
def memcpy (dest : List Nat) (offset : Nat) (src : Nat → Nat) : Nat → List Nat
  | 0 => dest
  | n + 1 => (memcpy dest offset src n).set (offset + n) (src n)

/-- The value of `*arg` for `arg` of type `unsigned long long *` (little endian). -/
def loadU64 (mem : Memory) (arg : Nat) : Nat :=
  (List.range 8).foldr (fun i acc => mem.byte (arg + i) % 256 + 256 * acc) 0

/-- Whether the `n` bytes from address `addr` on may all be loaded. -/
def Memory.canLoad (mem : Memory) (addr n : Nat) : Bool :=
  (List.range n).all (fun i => mem.readable (addr + i))

/-- The load `*arg` for `arg` of type `unsigned long long *`: eight bytes are read, and the
load has no defined behaviour when one of them is not readable. -/
def derefArg (mem : Memory) (arg : Nat) : Result Nat :=
  if mem.canLoad arg 8 then pure (loadU64 mem arg) else .undefined

/-- The function `hipSetupArgument`. The copy is defined only inside the buffer and from
readable source bytes. The expression `*arg` loads eight bytes whatever `size` is: on the
`size == 4` branch it is evaluated outside `DEBUG`, on the other branch inside it, that is
only when `hipi_EnableDebug` is set. -/
def hipSetupArgument (s : State) (mem : Memory) (arg size offset : Nat) :
    Result (hipError_t × State) :=
  match s.hipi_Ldata with
  | none => .undefined
  | some ldata =>
    if offset + size ≤ ldata.argstruct.length ∧ mem.canLoad arg size = true then do
      let ldata :=
        { ldata with argstruct := memcpy ldata.argstruct offset (fun i => mem.byte (arg + i)) size }
      let ldata := { ldata with argstructsize := ldata.argstructsize + (offset + size) }
      if size = 4 then do
        let value := toUnsigned (← derefArg mem arg)
        DEBUG s.hipi_EnableDebug [.text "==>DEBUG:    hipSetupArgument arg: ", .num arg,
          .text " value: ", .num value, .text " (0x", .hex value, .text ") with size ",
          .num size, .text " off: ", .num offset, .text "\n"]
      else
        if s.hipi_EnableDebug then do
          let value ← derefArg mem arg
          emit [.text "==>DEBUG:    hipSetupArgument arg: ", .num arg,
            .text " value: ", .num value, .text " (0x", .hex value,
            .text ") with size ", .num size, .text " off: ", .num offset, .text "\n"]
        else pure ()
      pure (hipSuccess, { s with hipi_Ldata := some ldata })
    else .undefined

/-- The loop `for (i = 0 ; i<kernel_count ; i++) if (hipi_Kernels[i].khaddr == khaddr) KID=i`
run for the first `n` values of `i`, from the starting content `KID` of the variable.
A read outside the table gives `none`. -/
def scanKID (kernels : List hipi_kernel_s) (khaddr : Nat) : Nat → Nat → Option Nat
  | 0, KID => some KID
  | n + 1, KID =>
    match scanKID kernels khaddr n KID with
    | none => none
    | some k =>
      match kernels[n]? with
      | none => none
      | some entry => some (if entry.khaddr = khaddr then n else k)

/-- The function `hipLaunchByPtr`. `KID` is declared without an initialiser: `KID0` is what
the variable holds before the loop. -/
def hipLaunchByPtr (drv : Driver) (s : State) (khaddr : Nat) (KID0 : Nat) :
    Result (hipError_t × State) :=
  match s.hipi_Global, s.hipi_Kernels, s.hipi_Ldata with
  | some global, some kernels, some ldata =>
    match scanKID kernels khaddr global.kernel_count KID0 with
    | none => .undefined
    | some KID =>
      match kernels[KID]? with
      | none => .undefined
      | some kernel => do
        DEBUG s.hipi_EnableDebug [.text "==>DEBUG:    hipLaunchByPtr for ",
          .cstr kernel.kernel_name, .text " kernel number: ", .num KID, .text " khaddr: ",
          .num khaddr, .text "\n"]
        let rc ← hipi_Launch drv s.hipi_EnableDebug global kernel ldata
        pure (rc, s)
  | _, _, _ => .undefined

/-- The function `__hipUnregisterFatBinary`. -/
def __hipUnregisterFatBinary (s : State) (fatbin : Nat) : Result (Nat × State) := do
  let s1 ←
    match s.hipi_Global with
    | some _ => do
      perform .freeGlobal
      pure { s with hipi_Global := none }
    | none => pure s
  DEBUG s.hipi_EnableDebug [.text "==>DEBUG: __hipUnregisterFatBinary called for ",
    .num fatbin, .text "\n"]
  pure (0, s1)

/-! ## Sequences of calls -/

/-- The globals handed back by a call that returned. -/
def Result.state? {α : Type} : Result (α × State) → Option State
  | .returned v _ _ => some v.2
  | .exited _ _ _ => none
  | .undefined => none
  | .outOfFuel => none

/-- One call of `__hipRegisterFunction` per entry of the list, in order, with the nine fields
of the entry as arguments; `none` when a call does not return. -/
def registerAll (fatbin : Nat) : State → List hipi_kernel_s → Option State
  | s, [] => some s
  | s, e :: es =>
    match (__hipRegisterFunction s fatbin e.khaddr e.host_name e.kernel_name e.thread_limit
      e.tid e.bid e.bDim e.gDim e.wSize).state? with
    | none => none
    | some s1 => registerAll fatbin s1 es

/-- Dispatch on a resolved entry: the debug line of `hipLaunchByPtr` for the entry `kernel`
found at index `KID`, then `hipi_Launch` on that entry, handing back the globals `s`. -/
def dispatchOn (drv : Driver) (s : State) (global : hipi_global_s) (kernel : hipi_kernel_s)
    (KID khaddr : Nat) (ldata : hipi_launchdata_s) : Result (hipError_t × State) := do
  DEBUG s.hipi_EnableDebug [.text "==>DEBUG:    hipLaunchByPtr for ",
    .cstr kernel.kernel_name, .text " kernel number: ", .num KID, .text " khaddr: ",
    .num khaddr, .text "\n"]
  let rc ← hipi_Launch drv s.hipi_EnableDebug global kernel ldata
  pure (rc, s)

/-- The globals with the staging buffer replaced. -/
def State.withLdata (s : State) (ldata : hipi_launchdata_s) : State :=
  { s with hipi_Ldata := some ldata }

/-- The staging buffer holding a configuration, a zero argument length and the argument
bytes of `ldata`. -/
def configured (ldata : hipi_launchdata_s) (gridDim blockDim : dim3) (smsize : Int)
    (stream : Nat) : hipi_launchdata_s :=
  { gridDim := gridDim, blockDim := blockDim, smsize := smsize, stream := stream,
    argstruct := ldata.argstruct, argstructsize := 0 }

/-- The globals with the debug flag replaced. -/
def State.withDebug (s : State) (b : Bool) : State :=
  { s with hipi_EnableDebug := b }

/-- The launch request assembled from the staging buffer for a resolved function handle,
as the runtime receives it. -/
def launchRequest (function : Nat) (ldata : hipi_launchdata_s) : LaunchRequest :=
  { f := function
    gridDimX := intToUnsigned (toInt ldata.gridDim.x)
    gridDimY := intToUnsigned (toInt ldata.gridDim.y)
    gridDimZ := intToUnsigned (toInt ldata.gridDim.z)
    blockDimX := toUnsigned ldata.blockDim.x
    blockDimY := toUnsigned ldata.blockDim.y
    blockDimZ := toUnsigned ldata.blockDim.z
    sharedMemBytes := intToUnsigned ldata.smsize
    stream := 0
    kernelParams := 0
    extra :=
      [.HIP_LAUNCH_PARAM_BUFFER_POINTER, .argstruct ldata.argstruct,
       .HIP_LAUNCH_PARAM_BUFFER_SIZE, .sizeRef ldata.argstructsize,
       .HIP_LAUNCH_PARAM_END] }

/-- The identity `khaddr` is that of an entry below `kernel_count`, and the count is within
the table. -/
def Registered (g : hipi_global_s) (K : List hipi_kernel_s) (khaddr : Nat) : Prop :=
  g.kernel_count ≤ K.length ∧
  ∃ i, i < g.kernel_count ∧ K[i]?.map (fun e => e.khaddr) = some khaddr

instance (g : hipi_global_s) (K : List hipi_kernel_s) (khaddr : Nat) :
    Decidable (Registered g K khaddr) := by
  unfold Registered
  infer_instance

/-- The runtime resolves every function and accepts every launch. -/
def DriverAccepts (drv : Driver) : Prop :=
  (∀ hmod kname, (drv.hipModuleGetFunction hmod kname).1 = hipSuccess) ∧
  ∀ req, drv.hipModuleLaunchKernel req = hipSuccess

/-! ## Vocabulary of the specification -/

/-- Both magic/version checks of the walker pass. -/
def ValidBlob (mem : Memory) (fatbin : Nat) : Prop :=
  (mem.fbwrapper fatbin).magic = 0x466243b1 ∧ (mem.fbwrapper fatbin).version = 1 ∧
  (mem.fbheader (mem.fbwrapper fatbin).binary).magic = 0xba55ed50 ∧
  (mem.fbheader (mem.fbwrapper fatbin).binary).version = 1

instance (mem : Memory) (fatbin : Nat) : Decidable (ValidBlob mem fatbin) := by
  unfold ValidBlob
  infer_instance

/-- The cursor after a Part Header at `p` is skipped: `p + headerSize + partSize`. -/
def advance (mem : Memory) (p : Nat) : Nat :=
  ptrAdd (ptrAdd p (mem.partheader p).headerSize) (mem.partheader p).partSize

/-- Address of the first Part Header: `header_base + headerSize`. -/
def firstPart (mem : Memory) (fatbin : Nat) : Nat :=
  ptrAdd (mem.fbwrapper fatbin).binary (mem.fbheader (mem.fbwrapper fatbin).binary).headerSize

/-- The boundary of the walk: `first_part + fatSize`. -/
def boundary (mem : Memory) (fatbin : Nat) : Nat :=
  ptrAdd (firstPart mem fatbin) (mem.fbheader (mem.fbwrapper fatbin).binary).fatSize

/-- Address of the cursor after `j` advances from the first Part Header. -/
def partAt (mem : Memory) (fatbin : Nat) (j : Nat) : Nat :=
  (advance mem)^[j] (firstPart mem fatbin)

/-- The first `n` cursor positions lie below the boundary and none carries the tag `t`. -/
def NoMatchBefore (mem : Memory) (fatbin t n : Nat) : Prop :=
  ∀ j, j < n →
    partAt mem fatbin j < boundary mem fatbin ∧ (mem.partheader (partAt mem fatbin j)).subarch ≠ t

instance (mem : Memory) (fatbin t n : Nat) : Decidable (NoMatchBefore mem fatbin t n) := by
  unfold NoMatchBefore
  infer_instance

/-- The walk reaches, after `k` advances and below the boundary, its first Part Header with
tag `t`. -/
def ReachesFirstMatch (mem : Memory) (fatbin t k : Nat) : Prop :=
  NoMatchBefore mem fatbin t k ∧ partAt mem fatbin k < boundary mem fatbin ∧
  (mem.partheader (partAt mem fatbin k)).subarch = t

instance (mem : Memory) (fatbin t k : Nat) : Decidable (ReachesFirstMatch mem fatbin t k) := by
  unfold ReachesFirstMatch
  infer_instance

/-- The walk leaves the loop after `n` advances without having seen the tag `t`. -/
def EndsWithoutMatch (mem : Memory) (fatbin t n : Nat) : Prop :=
  NoMatchBefore mem fatbin t n ∧ ¬ partAt mem fatbin n < boundary mem fatbin

instance (mem : Memory) (fatbin t n : Nat) : Decidable (EndsWithoutMatch mem fatbin t n) := by
  unfold EndsWithoutMatch
  infer_instance

/-- Every runtime call of the device probe succeeds and the device reports the
sub-architecture `t`. -/
def ProbeYields (drv : Driver) (t : Nat) : Prop :=
  drv.hipInit 0 = hipSuccess ∧ (drv.hipDeviceGet 0).1 = hipSuccess ∧
  (drv.hipCtxCreate 0 (drv.hipDeviceGet 0).2).1 = hipSuccess ∧
  (drv.hipGetDeviceProperties (drv.hipDeviceGet 0).2).1 = hipSuccess ∧
  intToUnsigned (drv.hipGetDeviceProperties (drv.hipDeviceGet 0).2).2 = t

instance (drv : Driver) (t : Nat) : Decidable (ProbeYields drv t) := by
  unfold ProbeYields
  infer_instance

/-- The runtime calls of a device probe that succeeds, in order. -/
def probeEffects (drv : Driver) : List Effect :=
  [.hipInit 0, .hipDeviceGet 0, .hipCtxCreate 0 (drv.hipDeviceGet 0).2,
   .hipGetDeviceProperties (drv.hipDeviceGet 0).2]

/-! ## Sample data -/

/-- A blob with wrapper at 100, header at 200 and three parts at 216, 380 and 644, tagged
803, 900 and 900. -/
def sampleMemory : Memory where
  fbwrapper a := if a = 100 then ⟨0x466243b1, 1, 200⟩ else ⟨0, 0, 0⟩
  fbheader a := if a = 200 then ⟨0xba55ed50, 1, 16, 542⟩ else ⟨0, 0, 0, 0⟩
  partheader a :=
    if a = 216 then ⟨64, 100, 803⟩
    else if a = 380 then ⟨64, 200, 900⟩
    else if a = 644 then ⟨64, 50, 900⟩
    else ⟨0, 0, 0⟩
  word _ := 0x464c457f
  byte a := a % 7
  readable _ := true

/-- The globals before any registration. -/
def initialState : State :=
  { hipi_EnableDebug := false, hipi_Global := none, hipi_Ldata := none, hipi_Kernels := none }

/-- A runtime in which every call succeeds; the device reports sub-architecture 803, module
handles and function handles are derived from the arguments. -/
def sampleDriver : Driver where
  hipInit _ := hipSuccess
  hipDeviceGet _ := (hipSuccess, 1)
  hipCtxCreate _ _ := (hipSuccess, 2)
  hipGetDeviceProperties _ := (hipSuccess, 803)
  hipModuleLoadData image := (hipSuccess, image + 1)
  hipModuleGetFunction hmod kname := (hipSuccess, hmod + kname)
  hipModuleLaunchKernel _ := hipSuccess

/-- Sample values of the constants of `hipLaunchByPtr.h`. -/
def sampleConstants : Constants :=
  { HIPBYPTR_SUCCESS := 0, HIPBYPTR_FAIL := 1, HIP_MAX_STREAMS := 2, HIP_MAX_KERNELS := 4,
    argstructCapacity := 16, VALCHECK := 1 }

/-- A kernel entry whose nine fields all hold `n`. -/
def sampleKernel (n : Nat) : hipi_kernel_s := ⟨n, n, n, n, n, n, n, n, n⟩

/-- The runtime context after the sample registration: module 281 is loaded. -/
def sampleGlobal : hipi_global_s :=
  { kernel_count := 0, hip_device := 1, hip_context := 2, hip_module := 281, syncq_len := 0,
    streamq_len := [0, 0] }

/-- A zeroed staging buffer with room for 16 argument bytes. -/
def sampleLdata : hipi_launchdata_s :=
  { gridDim := ⟨0, 0, 0⟩, blockDim := ⟨0, 0, 0⟩, smsize := 0, stream := 0,
    argstruct := List.replicate 16 0, argstructsize := 0 }

/-- A freshly allocated table of four entries, holding what `malloc` left there. -/
def sampleTable : List hipi_kernel_s :=
  [sampleKernel 0, sampleKernel 1, sampleKernel 2, sampleKernel 3]

/-- The globals after `__hipRegisterFatBinary` on the sample blob with the sample runtime:
the part tagged 803 (code object at 280) is loaded as module 281 and no kernel is
registered. -/
def sampleRegistered : State :=
  { hipi_EnableDebug := false, hipi_Global := some sampleGlobal, hipi_Ldata := some sampleLdata,
    hipi_Kernels := some sampleTable }

/-- The sample state after three kernels, with identities 5, 6 and 7, are registered. -/
def sampleThreeKernels : State :=
  { hipi_EnableDebug := false
    hipi_Global := some { sampleGlobal with kernel_count := 3 }
    hipi_Ldata := some sampleLdata
    hipi_Kernels := some [sampleKernel 5, sampleKernel 6, sampleKernel 7, sampleKernel 3] }

/-- One kernel with identity 7 is registered, a launch is configured, and two four-byte
arguments are staged at offsets 0 and 4 (from addresses 1000 and 2000). -/
def twoArgumentsStaged : Option State := do
  let s1 ← registerAll 0 sampleRegistered [sampleKernel 7]
  let s2 ← (hipConfigureCall s1 ⟨1, 1, 1⟩ ⟨64, 1, 1⟩ 0 0).state?
  let s3 ← (hipSetupArgument s2 sampleMemory 1000 4 0).state?
  (hipSetupArgument s3 sampleMemory 2000 4 4).state?

/-- Whether a call has a defined outcome at all: it returned or it called `exit`. -/
def Result.isDefined {α : Type} : Result α → Bool
  | .returned _ _ _ => true
  | .exited _ _ _ => true
  | .undefined => false
  | .outOfFuel => false

/-- The sample state with three kernels after `__hipUnregisterFatBinary`: the runtime
context is released and `hipi_Global` is null. -/
def sampleUnregistered : State :=
  { sampleThreeKernels with hipi_Global := none }

/-- An entry with identity `khaddr` and kernel name `kernel_name`, zero elsewhere. -/
def namedKernel (khaddr kernel_name : Nat) : hipi_kernel_s :=
  { khaddr := khaddr, host_name := 0, kernel_name := kernel_name, thread_limit := 0, tid := 0,
    bid := 0, bDim := 0, gDim := 0, wSize := 0 }

/-- The sample state after identity 6 is registered under kernel name 10, identity 5 under
kernel name 11, and identity 6 again under kernel name 20. -/
def sampleShadowed : State :=
  { hipi_EnableDebug := false
    hipi_Global := some { sampleGlobal with kernel_count := 3 }
    hipi_Ldata := some sampleLdata
    hipi_Kernels := some [namedKernel 6 10, namedKernel 5 11, namedKernel 6 20, sampleKernel 3] }

/-- A call made by compiler-generated code once the fat binary is registered. -/
inductive Call where
  | registerFunction (fatbin : Nat) (entry : hipi_kernel_s)
  | registerVar (fatCubinHandle hostVar deviceAddress deviceName : Nat)
      (ext size constant glob : Int)
  | configureCall (gridDim blockDim : dim3) (smsize : Int) (stream : Nat)
  | setupArgument (arg size offset : Nat)
  | launchByPtr (khaddr KID0 : Nat)

/-- The globals after one call; `none` when the call does not return. -/
def Call.run (drv : Driver) (mem : Memory) (s : State) : Call → Option State
  | .registerFunction fatbin e =>
    (__hipRegisterFunction s fatbin e.khaddr e.host_name e.kernel_name e.thread_limit
      e.tid e.bid e.bDim e.gDim e.wSize).state?
  | .registerVar fatCubinHandle hostVar deviceAddress deviceName ext size constant glob =>
    (__hipRegisterVar s fatCubinHandle hostVar deviceAddress deviceName ext size constant
      glob).state?
  | .configureCall gridDim blockDim smsize stream =>
    (hipConfigureCall s gridDim blockDim smsize stream).state?
  | .setupArgument arg size offset => (hipSetupArgument s mem arg size offset).state?
  | .launchByPtr khaddr KID0 => (hipLaunchByPtr drv s khaddr KID0).state?

/-- The globals after a sequence of calls, each of which returns. -/
def runCalls (drv : Driver) (mem : Memory) : State → List Call → Option State
  | s, [] => some s
  | s, c :: cs =>
    match c.run drv mem s with
    | none => none
    | some s1 => runCalls drv mem s1 cs

/-- The entries passed to the `__hipRegisterFunction` calls of a sequence, in order. -/
def registrations : List Call → List hipi_kernel_s
  | [] => []
  | .registerFunction _ e :: cs => e :: registrations cs
  | .registerVar _ _ _ _ _ _ _ _ :: cs => registrations cs
  | .configureCall _ _ _ _ :: cs => registrations cs
  | .setupArgument _ _ _ :: cs => registrations cs
  | .launchByPtr _ _ :: cs => registrations cs

/-- The registry holds exactly the entries `regs`: the count is their number and entry `k`
of the table, of capacity `n`, is the `k`-th of them. -/
def RegistryHolds (n : Nat) (s : State) (regs : List hipi_kernel_s) : Prop :=
  ∃ g K, s.hipi_Global = some g ∧ s.hipi_Kernels = some K ∧ g.kernel_count = regs.length ∧
    K.length = n ∧ ∀ k, k < regs.length → K[k]? = regs[k]?

/-- A sample sequence: two registrations with a variable registration, a configured launch
with one argument, and a launch in between and after. -/
def sampleCalls : List Call :=
  [.registerFunction 0 (sampleKernel 5), .registerVar 0 1 2 3 0 4 0 1,
   .configureCall ⟨1, 1, 1⟩ ⟨64, 1, 1⟩ 0 0, .setupArgument 1000 4 0, .launchByPtr 5 0,
   .registerFunction 0 (sampleKernel 6), .launchByPtr 6 0]

/-- The globals the sample sequence of calls leaves behind. -/
def sampleAfterCalls : State :=
  { hipi_EnableDebug := false
    hipi_Global := some { sampleGlobal with kernel_count := 2 }
    hipi_Ldata := some
      { gridDim := ⟨1, 1, 1⟩, blockDim := ⟨64, 1, 1⟩, smsize := 0, stream := 0,
        argstruct := [6, 0, 1, 2, 0, 0, 0, 0, 0, 0, 0, 0, 0, 0, 0, 0], argstructsize := 4 }
    hipi_Kernels := some [sampleKernel 5, sampleKernel 6, sampleKernel 2, sampleKernel 3] }

/-- The addresses of the Part Headers the loop of `hipi_GetObjForSubarch` dereferences
during its first `n` turns, in order: a turn runs while the cursor is below `end_`, and no
turn follows one that found the tag. -/
def walkReads (mem : Memory) (subarch end_ : Nat) : Nat → Nat → List Nat
  | 0, _ => []
  | n + 1, pheader =>
    if pheader < end_ then
      let part := mem.partheader pheader
      if part.subarch = subarch then [pheader]
      else
        pheader :: walkReads mem subarch end_ n
          (ptrAdd (ptrAdd pheader part.headerSize) part.partSize)
    else []

/-- A blob with wrapper at 100, header at 200 and a single part at 216, tagged 803, whose
part-size field is zero and whose header takes the 64 bytes up to the boundary. -/
def sampleZeroPartSize : Memory where
  fbwrapper a := if a = 100 then ⟨0x466243b1, 1, 200⟩ else ⟨0, 0, 0⟩
  fbheader a := if a = 200 then ⟨0xba55ed50, 1, 16, 64⟩ else ⟨0, 0, 0, 0⟩
  partheader a := if a = 216 then ⟨64, 0, 803⟩ else ⟨0, 0, 0⟩
  word _ := 0
  byte _ := 0
  readable _ := true

/-- A blob with wrapper at 100, header at 200 and a single part at 216, tagged 803, whose
header-size and part-size fields are both zero. -/
def sampleStalled : Memory where
  fbwrapper a := if a = 100 then ⟨0x466243b1, 1, 200⟩ else ⟨0, 0, 0⟩
  fbheader a := if a = 200 then ⟨0xba55ed50, 1, 16, 64⟩ else ⟨0, 0, 0, 0⟩
  partheader a := if a = 216 then ⟨0, 0, 803⟩ else ⟨0, 0, 0⟩
  word _ := 0
  byte _ := 0
  readable _ := true

/-- A blob with wrapper at 100 and header at 200 whose `fatSize` is 0; a part tagged 900
sits right after the header, outside the region. -/
def sampleEmptyBlob : Memory where
  fbwrapper a := if a = 100 then ⟨0x466243b1, 1, 200⟩ else ⟨0, 0, 0⟩
  fbheader a := if a = 200 then ⟨0xba55ed50, 1, 16, 0⟩ else ⟨0, 0, 0, 0⟩
  partheader a := if a = 216 then ⟨64, 100, 900⟩ else ⟨0, 0, 0⟩
  word _ := 0
  byte _ := 0
  readable _ := true

/-- Apply a function to the value a call returns. -/
def Result.map {α β : Type} (f : α → β) : Result α → Result β
  | .returned a l e => .returned (f a) l e
  | .exited st l e => .exited st l e
  | .undefined => .undefined
  | .outOfFuel => .outOfFuel

/-- The runtime context as `calloc` hands it to `__hipRegisterFatBinary`. -/
def freshGlobal (c : Constants) : hipi_global_s :=
  { kernel_count := 0, hip_device := 0, hip_context := 0, hip_module := 0, syncq_len := 0,
    streamq_len := List.replicate c.HIP_MAX_STREAMS 0 }

/-- A blob with wrapper at 100, header at 200 and two parts at 216 and 380, tagged 0 and
803. -/
def sampleZeroTag : Memory where
  fbwrapper a := if a = 100 then ⟨0x466243b1, 1, 200⟩ else ⟨0, 0, 0⟩
  fbheader a := if a = 200 then ⟨0xba55ed50, 1, 16, 428⟩ else ⟨0, 0, 0, 0⟩
  partheader a :=
    if a = 216 then ⟨64, 100, 0⟩
    else if a = 380 then ⟨64, 200, 803⟩
    else ⟨0, 0, 0⟩
  word _ := 0x464c457f
  byte _ := 0
  readable _ := true

/-- The sample runtime with a device that reports sub-architecture 0. -/
def sampleDriverZero : Driver :=
  { sampleDriver with hipGetDeviceProperties := fun _ => (hipSuccess, 0) }

/-- The sample memory in which the readable bytes end at address 1002: an argument stored
in the last bytes before that address has nothing readable behind it. -/
def sampleShortArgument : Memory :=
  { sampleMemory with readable := fun a => decide (a < 1002) }

/-- The launch request of an effect, when the effect is a call of `hipModuleLaunchKernel`. -/
def Effect.launch? : Effect → Option LaunchRequest
  | .hipModuleLaunchKernel req => some req
  | .hipInit _ => none
  | .hipDeviceGet _ => none
  | .hipCtxCreate _ _ => none
  | .hipGetDeviceProperties _ => none
  | .hipModuleLoadData _ => none
  | .hipModuleGetFunction _ _ => none
  | .hipDeviceSynchronize => none
  | .callocGlobal => none
  | .callocLdata => none
  | .mallocKernels _ => none
  | .freeGlobal => none

/-! ## The walker -/

theorem ptrAdd_of_lt {p n : Nat} (h : p + n < 2 ^ 64) : ptrAdd p n = p + n := by
  unfold ptrAdd
  exact Nat.mod_eq_of_lt h

theorem toUnsigned_of_lt {n : Nat} (h : n < 2 ^ 32) : toUnsigned n = n := by
  unfold toUnsigned
  exact Nat.mod_eq_of_lt h

/-- One turn of the loop at a Part Header below the boundary whose tag is the target. -/
theorem walkLoop_hit (dbg : Bool) (mem : Memory) (t : Nat) (objsz : Bool) (end_ f p : Nat)
    (hlt : p < end_) (htag : (mem.partheader p).subarch = t) :
    walkLoop dbg mem t objsz end_ (f + 1) p
      = some
          { hsaco := ptrAdd p (mem.partheader p).headerSize
            objszStore := if objsz then some (toUnsigned (mem.partheader p).partSize) else none
            partReads := [p]
            peeks := walkPeeks dbg mem p
            log := walkLog dbg mem p } := by
  simp only [walkLoop, hlt, htag, if_true]

/-- One turn of the loop at a Part Header below the boundary whose tag is not the target. -/
theorem walkLoop_skip (dbg : Bool) (mem : Memory) (t : Nat) (objsz : Bool) (end_ f p : Nat)
    (hlt : p < end_) (htag : (mem.partheader p).subarch ≠ t) :
    walkLoop dbg mem t objsz end_ (f + 1) p
      = (walkLoop dbg mem t objsz end_ f (advance mem p)).map
          (Walk.visit p (walkPeeks dbg mem p) (walkLog dbg mem p)) := by
  simp only [walkLoop, hlt, htag, if_true, if_false, advance]

/-- The loop leaves at once when the cursor is not below the boundary. -/
theorem walkLoop_done (dbg : Bool) (mem : Memory) (t : Nat) (objsz : Bool) (end_ f p : Nat)
    (hge : ¬ p < end_) : walkLoop dbg mem t objsz end_ f p = some Walk.notFound := by
  cases f <;> simp only [walkLoop, hge, if_false]

theorem iterate_advance_shift (mem : Memory) (p j : Nat) :
    (advance mem)^[j] (advance mem p) = (advance mem)^[j + 1] p := by
  rw [Function.iterate_succ_apply]

theorem range_succ_map_iterate (mem : Memory) (p n : Nat) :
    (List.range (n + 1)).map (fun j => (advance mem)^[j] p)
      = p :: (List.range n).map (fun j => (advance mem)^[j + 1] p) := by
  rw [List.range_succ_eq_map n]
  simp only [List.map_cons, List.map_map, Function.iterate_zero, id_eq]
  rfl

/-- The loop, started at `p` with at least `k + 1` iterations allowed, stops at the first
Part Header that carries the tag when that header is `k` advances away. -/
theorem walkLoop_first_match (dbg : Bool) (mem : Memory) (t : Nat) (objsz : Bool) (end_ : Nat) :
    ∀ (k fuel p : Nat),
      (∀ j, j < k → (advance mem)^[j] p < end_ ∧
        (mem.partheader ((advance mem)^[j] p)).subarch ≠ t) →
      (advance mem)^[k] p < end_ →
      (mem.partheader ((advance mem)^[k] p)).subarch = t →
      k < fuel →
      ∃ w, walkLoop dbg mem t objsz end_ fuel p = some w ∧
        w.hsaco = ptrAdd ((advance mem)^[k] p) (mem.partheader ((advance mem)^[k] p)).headerSize ∧
        w.objszStore =
          (if objsz then some (toUnsigned (mem.partheader ((advance mem)^[k] p)).partSize)
           else none) ∧
        w.partReads = (List.range (k + 1)).map (fun j => (advance mem)^[j] p) := by
  intro k
  induction k with
  | zero =>
    intro fuel p _ hlt htag hfuel
    obtain ⟨f, rfl⟩ : ∃ f, fuel = f + 1 := ⟨fuel - 1, by omega⟩
    simp only [Function.iterate_zero, id_eq] at hlt htag
    exact ⟨_, walkLoop_hit dbg mem t objsz end_ f p hlt htag, rfl, rfl, rfl⟩
  | succ k ih =>
    intro fuel p hbefore hlt htag hfuel
    obtain ⟨f, rfl⟩ : ∃ f, fuel = f + 1 := ⟨fuel - 1, by omega⟩
    have h0 := hbefore 0 (Nat.succ_pos k)
    simp only [Function.iterate_zero, id_eq] at h0
    obtain ⟨w, hw, hh, ho, hr⟩ := ih f (advance mem p)
      (by
        intro j hj
        rw [iterate_advance_shift]
        exact hbefore (j + 1) (by omega))
      (by rw [iterate_advance_shift]; exact hlt)
      (by rw [iterate_advance_shift]; exact htag)
      (by omega)
    simp only [iterate_advance_shift] at hh ho hr
    refine ⟨Walk.visit p (walkPeeks dbg mem p) (walkLog dbg mem p) w,
      by rw [walkLoop_skip dbg mem t objsz end_ f p h0.1 h0.2, hw]; rfl, hh, ho, ?_⟩
    rw [range_succ_map_iterate]
    show p :: w.partReads = _
    rw [hr]

/-- The loop, started at `p`, returns "not found" when the cursor leaves the region after `n`
advances without a Part Header carrying the tag, given `n` iterations. -/
theorem walkLoop_no_match (dbg : Bool) (mem : Memory) (t : Nat) (objsz : Bool) (end_ : Nat) :
    ∀ (n fuel p : Nat),
      (∀ j, j < n → (advance mem)^[j] p < end_ ∧
        (mem.partheader ((advance mem)^[j] p)).subarch ≠ t) →
      ¬ (advance mem)^[n] p < end_ →
      n ≤ fuel →
      ∃ w, walkLoop dbg mem t objsz end_ fuel p = some w ∧
        w.hsaco = 0 ∧ w.objszStore = none ∧
        w.partReads = (List.range n).map (fun j => (advance mem)^[j] p) := by
  intro n
  induction n with
  | zero =>
    intro fuel p _ hge _
    simp only [Function.iterate_zero, id_eq] at hge
    exact ⟨Walk.notFound, walkLoop_done dbg mem t objsz end_ fuel p hge, rfl, rfl, rfl⟩
  | succ n ih =>
    intro fuel p hbefore hge hfuel
    obtain ⟨f, rfl⟩ : ∃ f, fuel = f + 1 := ⟨fuel - 1, by omega⟩
    have h0 := hbefore 0 (Nat.succ_pos n)
    simp only [Function.iterate_zero, id_eq] at h0
    obtain ⟨w, hw, hh, ho, hr⟩ := ih f (advance mem p)
      (by
        intro j hj
        rw [iterate_advance_shift]
        exact hbefore (j + 1) (by omega))
      (by rw [iterate_advance_shift]; exact hge)
      (by omega)
    simp only [iterate_advance_shift] at hr
    refine ⟨Walk.visit p (walkPeeks dbg mem p) (walkLog dbg mem p) w,
      by rw [walkLoop_skip dbg mem t objsz end_ f p h0.1 h0.2, hw]; rfl, hh, ho, ?_⟩
    rw [range_succ_map_iterate]
    show p :: w.partReads = _
    rw [hr]

/-- C1. On a blob that passes both magic/version checks, if the walk from
`header_base + headerSize` reaches below the boundary a first Part Header tagged `t` (after
`k` advances), then, given more than `k` loop iterations, `hipi_GetObjForSubarch` returns
that part's address plus its `headerSize` (in `uintptr_t` arithmetic) and stores its
`partSize` (converted to `unsigned`) through a non-null `objsz`; the Part Headers read are
exactly those up to the match, so later parts are never considered. Where the sum does not
wrap and the size fits in 32 bits the values are the plain sum and the plain size. -/
theorem hipi_GetObjForSubarch_first_match (s : State) (mem : Memory) (fatbin t : Nat)
    (objsz : Bool) (k fuel : Nat) (hvalid : ValidBlob mem fatbin)
    (hreach : ReachesFirstMatch mem fatbin t k) (hfuel : k < fuel) :
    ∃ w, hipi_GetObjForSubarch fuel s mem fatbin t objsz = some (w, s) ∧
      w.hsaco = ptrAdd (partAt mem fatbin k) (mem.partheader (partAt mem fatbin k)).headerSize ∧
      w.objszStore =
        (if objsz then some (toUnsigned (mem.partheader (partAt mem fatbin k)).partSize)
         else none) ∧
      w.partReads = (List.range (k + 1)).map (partAt mem fatbin) ∧
      (partAt mem fatbin k + (mem.partheader (partAt mem fatbin k)).headerSize < 2 ^ 64 →
        w.hsaco = partAt mem fatbin k + (mem.partheader (partAt mem fatbin k)).headerSize) ∧
      (objsz = true → (mem.partheader (partAt mem fatbin k)).partSize < 2 ^ 32 →
        w.objszStore = some (mem.partheader (partAt mem fatbin k)).partSize) := by
  obtain ⟨hm, hv, hm3, hv3⟩ := hvalid
  obtain ⟨hbefore, hlt, htag⟩ := hreach
  obtain ⟨w, hw, hh, ho, hr⟩ := walkLoop_first_match s.hipi_EnableDebug mem t objsz
    (boundary mem fatbin) k fuel (firstPart mem fatbin) hbefore hlt htag hfuel
  have hrun : hipi_GetObjForSubarch fuel s mem fatbin t objsz
      = some ({ w with log :=
          (if s.hipi_EnableDebug then [.text "\n==>DEBUG: hipi_GetObjForSubarch\n"] else [])
            ++ w.log ++
          (if s.hipi_EnableDebug then [.text "<==EXIT: hipi_GetObjForSubarch\n"] else []) },
        s) := by
    unfold boundary firstPart at hw
    simp only [hipi_GetObjForSubarch, __hipByPtrFatMAGIC2, __hipByPtrFatMAGIC3, hm, hv, hm3, hv3,
      ne_eq, not_true_eq_false, or_self, if_false, hw]
  refine ⟨_, hrun, hh, ho, hr, ?_, ?_⟩
  · intro hno
    show w.hsaco = _
    rw [hh]
    exact ptrAdd_of_lt hno
  · intro hnn hsz
    show w.objszStore = _
    rw [ho, hnn, if_pos rfl]
    exact congrArg some (toUnsigned_of_lt hsz)

/-- C1, at the sample blob: target 900 is first met at the second part (address 380). -/
theorem hipi_GetObjForSubarch_first_match_witness :
    ValidBlob sampleMemory 100 ∧ ReachesFirstMatch sampleMemory 100 900 1 ∧
    ∃ w, hipi_GetObjForSubarch 2 initialState sampleMemory 100 900 true = some (w, initialState) ∧
      w.hsaco = 444 ∧ w.objszStore = some 200 ∧ w.partReads = [216, 380] := by
  have hv : ValidBlob sampleMemory 100 := by decide
  have hr : ReachesFirstMatch sampleMemory 100 900 1 := by decide
  obtain ⟨w, hw, hh, ho, hp, -, -⟩ :=
    hipi_GetObjForSubarch_first_match initialState sampleMemory 100 900 true 1 2 hv hr
      (by decide)
  refine ⟨hv, hr, w, hw, ?_, ?_, ?_⟩
  · rw [hh]; decide
  · rw [ho]; decide
  · rw [hp]; decide

/-- C2. When the wrapper's magic is not `0x466243b1` or its version is not 1, or the header's
magic is not `0xba55ed50` or its version is not 1, `hipi_GetObjForSubarch` returns null
whatever the iteration bound, reads no Part Header (and peeks at no part), stores nothing
through `objsz`, and hands back the globals (kernel count and kernel table included)
unchanged. -/
theorem hipi_GetObjForSubarch_bad_magic (fuel : Nat) (s : State) (mem : Memory)
    (fatbin t : Nat) (objsz : Bool)
    (hbad : (mem.fbwrapper fatbin).magic ≠ 0x466243b1 ∨ (mem.fbwrapper fatbin).version ≠ 1 ∨
      (mem.fbheader (mem.fbwrapper fatbin).binary).magic ≠ 0xba55ed50 ∨
      (mem.fbheader (mem.fbwrapper fatbin).binary).version ≠ 1) :
    ∃ w, hipi_GetObjForSubarch fuel s mem fatbin t objsz = some (w, s) ∧
      w.hsaco = 0 ∧ w.partReads = [] ∧ w.peeks = [] ∧ w.objszStore = none := by
  by_cases hw : (mem.fbwrapper fatbin).magic ≠ __hipByPtrFatMAGIC2 ∨
      (mem.fbwrapper fatbin).version ≠ 1
  · simp only [hipi_GetObjForSubarch, hw, if_true]
    exact ⟨_, rfl, rfl, rfl, rfl, rfl⟩
  · have hh : (mem.fbheader (mem.fbwrapper fatbin).binary).magic ≠ __hipByPtrFatMAGIC3 ∨
        (mem.fbheader (mem.fbwrapper fatbin).binary).version ≠ 1 := by
      rcases hbad with h | h | h | h
      · exact absurd (Or.inl h) hw
      · exact absurd (Or.inr h) hw
      · exact Or.inl h
      · exact Or.inr h
    simp only [hipi_GetObjForSubarch, hw, hh, if_true, if_false]
    exact ⟨_, rfl, rfl, rfl, rfl, rfl⟩

/-- C2, at a blob whose wrapper magic is zero. -/
theorem hipi_GetObjForSubarch_bad_magic_witness :
    ∃ w, hipi_GetObjForSubarch 0 initialState sampleMemory 7 900 true = some (w, initialState) ∧
      w.hsaco = 0 ∧ w.partReads = [] ∧ w.peeks = [] ∧ w.objszStore = none :=
  hipi_GetObjForSubarch_bad_magic 0 initialState sampleMemory 7 900 true (Or.inl (by decide))

/-! ## Registration of the fat binary -/

/-- The device probe when every runtime call succeeds. -/
theorem hipi_GetSubarch_of_probeYields (c : Constants) (drv : Driver) (dbg : Bool)
    (glob : hipi_global_s) (t : Nat) (h : ProbeYields drv t) :
    ∃ lg, hipi_GetSubarch c drv dbg glob
      = .returned
          (if t ≠ 0 then c.HIPBYPTR_SUCCESS else c.HIPBYPTR_FAIL,
           { glob with hip_device := (drv.hipDeviceGet 0).2,
                       hip_context := (drv.hipCtxCreate 0 (drv.hipDeviceGet 0).2).2 },
           some t) lg (probeEffects drv) := by
  obtain ⟨h1, h2, h3, h4, h5⟩ := h
  by_cases ht : t = 0 <;> cases dbg <;>
    simp [hipi_GetSubarch, ErrorCheckHIP, DEBUG, emit, perform, exit, bind, pure, Result.bind,
      Result.prepend, h1, h2, h3, h4, h5, ht, probeEffects]

/-- C3. On a blob that passes both magic/version checks, when the walk leaves the loop after
`n` advances without meeting a Part Header tagged with the probed sub-architecture `t`, the
walker (given `n` iterations) returns null without a store through `objsz`, and
`__hipRegisterFatBinary` ends in `exit(1)`: the calls it made are the two `calloc`s and the
probe, so the module loader is never invoked and the kernel table is never allocated. -/
theorem __hipRegisterFatBinary_no_match (c : Constants) (drv : Driver)
    (nccl_debug : Option String) (junk : Nat → hipi_kernel_s) (fuel : Nat) (s : State)
    (mem : Memory) (fatbin t n : Nat) (hvalid : ValidBlob mem fatbin)
    (hprobe : ProbeYields drv t) (hend : EndsWithoutMatch mem fatbin t n) (hfuel : n ≤ fuel) :
    (∀ s1 objsz, ∃ w, hipi_GetObjForSubarch fuel s1 mem fatbin t objsz = some (w, s1) ∧
        w.hsaco = 0 ∧ w.objszStore = none ∧ w.partReads = (List.range n).map (partAt mem fatbin)) ∧
    ∃ lg ef, __hipRegisterFatBinary c drv nccl_debug junk fuel s mem fatbin = .exited 1 lg ef ∧
      ef = [.callocGlobal, .callocLdata] ++ probeEffects drv ∧
      (∀ image, Effect.hipModuleLoadData image ∉ ef) ∧
      (∀ entries, Effect.mallocKernels entries ∉ ef) := by
  obtain ⟨hm, hv, hm3, hv3⟩ := hvalid
  obtain ⟨hbefore, hge⟩ := hend
  have hwalk : ∀ s1 objsz, ∃ w, hipi_GetObjForSubarch fuel s1 mem fatbin t objsz = some (w, s1) ∧
      w.hsaco = 0 ∧ w.objszStore = none ∧
      w.partReads = (List.range n).map (partAt mem fatbin) := by
    intro s1 objsz
    obtain ⟨w, hw, hh, ho, hr⟩ := walkLoop_no_match s1.hipi_EnableDebug mem t objsz
      (boundary mem fatbin) n fuel (firstPart mem fatbin) hbefore hge hfuel
    unfold boundary firstPart at hw
    simp only [hipi_GetObjForSubarch, __hipByPtrFatMAGIC2, __hipByPtrFatMAGIC3, hm, hv, hm3, hv3,
      ne_eq, not_true_eq_false, or_self, if_false, hw]
    exact ⟨_, rfl, hh, ho, hr⟩
  refine ⟨hwalk, ?_⟩
  obtain ⟨plg, hp⟩ := hipi_GetSubarch_of_probeYields c drv (hipi_InitDebug nccl_debug)
    { kernel_count := 0, hip_device := 0, hip_context := 0, hip_module := 0, syncq_len := 0,
      streamq_len := List.replicate c.HIP_MAX_STREAMS 0 } t hprobe
  obtain ⟨w, hw, hh, -, -⟩ := hwalk
    { hipi_EnableDebug := hipi_InitDebug nccl_debug,
      hipi_Global := some
        { kernel_count := 0, hip_device := (drv.hipDeviceGet 0).2,
          hip_context := (drv.hipCtxCreate 0 (drv.hipDeviceGet 0).2).2, hip_module := 0,
          syncq_len := 0, streamq_len := List.replicate c.HIP_MAX_STREAMS 0 },
      hipi_Ldata := some
        { gridDim := ⟨0, 0, 0⟩, blockDim := ⟨0, 0, 0⟩, smsize := 0, stream := 0,
          argstruct := List.replicate c.argstructCapacity 0, argstructsize := 0 },
      hipi_Kernels := s.hipi_Kernels } true
  have hrun : ∃ lg, __hipRegisterFatBinary c drv nccl_debug junk fuel s mem fatbin
      = .exited 1 lg ([.callocGlobal, .callocLdata] ++ probeEffects drv) := by
    cases hd : hipi_InitDebug nccl_debug <;> rw [hd] at hp hw <;>
      simp [__hipRegisterFatBinary, hd, hp, hw, hh, DEBUG, emit, perform, exit, bind, pure,
        Result.bind, Result.prepend]
  obtain ⟨lg, hrun⟩ := hrun
  refine ⟨lg, _, hrun, rfl, ?_, ?_⟩
  · intro image
    simp [probeEffects]
  · intro entries
    simp [probeEffects]

/-- C3, at the sample blob: the tag 801 is on no part and the third part ends at the
boundary. -/
theorem __hipRegisterFatBinary_no_match_witness :
    (∀ s1 objsz, ∃ w, hipi_GetObjForSubarch 3 s1 sampleMemory 100 801 objsz = some (w, s1) ∧
        w.hsaco = 0 ∧ w.objszStore = none ∧
        w.partReads = (List.range 3).map (partAt sampleMemory 100)) ∧
    ∃ lg ef, __hipRegisterFatBinary sampleConstants
        { sampleDriver with hipGetDeviceProperties := fun _ => (hipSuccess, 801) }
        none sampleKernel 3 initialState sampleMemory 100 = .exited 1 lg ef ∧
      ef = [.callocGlobal, .callocLdata] ++
        probeEffects { sampleDriver with hipGetDeviceProperties := fun _ => (hipSuccess, 801) } ∧
      (∀ image, Effect.hipModuleLoadData image ∉ ef) ∧
      (∀ entries, Effect.mallocKernels entries ∉ ef) :=
  __hipRegisterFatBinary_no_match sampleConstants
    { sampleDriver with hipGetDeviceProperties := fun _ => (hipSuccess, 801) }
    none sampleKernel 3 initialState sampleMemory 100 801 3 (by decide) (by decide) (by decide)
    (by decide)

/-! ## Staging and launch on sample data -/

/-- The sample registration yields the sample registered state. -/
theorem sampleRegistered_eq :
    (__hipRegisterFatBinary sampleConstants sampleDriver none sampleKernel 1 initialState
      sampleMemory 100).state? = some sampleRegistered := by
  decide

/-- C4 (the code at a failing input). After `hipConfigureCall`, two four-byte arguments
staged at offsets 0 and 4 cover the `K = 8` bytes `[0, 8)`; the launch passes their bytes in
the buffer, but the buffer-size value handed to the runtime is `(0 + 4) + (4 + 4) = 12`. -/
theorem hipLaunchByPtr_two_arguments_size :
    twoArgumentsStaged.map (fun s => (hipLaunchByPtr sampleDriver s 7 0).effects)
      = some
          [.hipModuleGetFunction 281 7,
           .hipModuleLaunchKernel
             { f := 288, gridDimX := 1, gridDimY := 1, gridDimZ := 1,
               blockDimX := 64, blockDimY := 1, blockDimZ := 1,
               sharedMemBytes := 0, stream := 0, kernelParams := 0,
               extra :=
                 [.HIP_LAUNCH_PARAM_BUFFER_POINTER,
                  .argstruct [6, 0, 1, 2, 5, 6, 0, 1, 0, 0, 0, 0, 0, 0, 0, 0],
                  .HIP_LAUNCH_PARAM_BUFFER_SIZE, .sizeRef 12,
                  .HIP_LAUNCH_PARAM_END] },
           .hipDeviceSynchronize] := by
  decide

/-- C7 (the code at a failing input). With no kernel registered, `hipLaunchByPtr(42)` runs
no loop iteration and `KID` keeps what it held. When that is an index of the four-entry
table, the call resolves the entry found there and launches it: the function named by that
entry is resolved, the launch primitive is invoked and the call returns `hipSuccess`. When it
is not, the table is read outside its allocation. No lookup failure is reported either way. -/
theorem hipLaunchByPtr_unregistered_identity (KID0 : Nat) :
    hipLaunchByPtr sampleDriver sampleRegistered 42 KID0
      = if KID0 < 4 then
          .returned (hipSuccess, sampleRegistered) []
            [.hipModuleGetFunction 281 KID0,
             .hipModuleLaunchKernel (launchRequest (281 + KID0) sampleLdata),
             .hipDeviceSynchronize]
        else .undefined := by
  by_cases h : KID0 < 4
  · rw [if_pos h]
    interval_cases KID0 <;> decide
  · rw [if_neg h]
    have hnone : sampleTable[KID0]? = none :=
      List.getElem?_eq_none (by simp only [sampleTable, List.length_cons, List.length_nil]; omega)
    simp only [hipLaunchByPtr, sampleRegistered, sampleGlobal, scanKID, hnone]

/-! ## The kernel registry -/

/-- A call of `__hipRegisterFunction` inside the table: the entry goes to index
`kernel_count` and the count grows by one. -/
theorem __hipRegisterFunction_state (s : State) (fatbin : Nat) (e : hipi_kernel_s)
    (g : hipi_global_s) (K : List hipi_kernel_s) (hG : s.hipi_Global = some g)
    (hK : s.hipi_Kernels = some K) (hlt : g.kernel_count < K.length) :
    (__hipRegisterFunction s fatbin e.khaddr e.host_name e.kernel_name e.thread_limit
      e.tid e.bid e.bDim e.gDim e.wSize).state?
      = some { s with hipi_Global := some { g with kernel_count := g.kernel_count + 1 },
                      hipi_Kernels := some (K.set g.kernel_count e) } := by
  cases hd : s.hipi_EnableDebug <;>
    simp [__hipRegisterFunction, hG, hK, hlt, hd, DEBUG, emit, bind, pure, Result.bind,
      Result.prepend, Result.state?]

/-- A call of `__hipRegisterFunction` with the table full does not return. -/
theorem __hipRegisterFunction_full (s : State) (fatbin : Nat) (e : hipi_kernel_s)
    (g : hipi_global_s) (K : List hipi_kernel_s) (hG : s.hipi_Global = some g)
    (hK : s.hipi_Kernels = some K) (hge : ¬ g.kernel_count < K.length) :
    (__hipRegisterFunction s fatbin e.khaddr e.host_name e.kernel_name e.thread_limit
      e.tid e.bid e.bDim e.gDim e.wSize).state? = none := by
  simp [__hipRegisterFunction, hG, hK, hge, Result.state?]

/-- What a run of registrations leaves behind: the count has grown by the number of calls,
the entries sit at consecutive indices from the old count on, and the entries below the old
count, the staging buffer and the debug flag are untouched. -/
theorem registerAll_spec (fatbin : Nat) :
    ∀ (es : List hipi_kernel_s) (s s1 : State) (g : hipi_global_s) (K : List hipi_kernel_s),
      s.hipi_Global = some g → s.hipi_Kernels = some K → registerAll fatbin s es = some s1 →
      es.length ≤ K.length - g.kernel_count ∧
      ∃ K1, s1.hipi_Global = some { g with kernel_count := g.kernel_count + es.length } ∧
        s1.hipi_Kernels = some K1 ∧ s1.hipi_Ldata = s.hipi_Ldata ∧
        s1.hipi_EnableDebug = s.hipi_EnableDebug ∧ K1.length = K.length ∧
        (∀ i, i < es.length → K1[g.kernel_count + i]? = es[i]?) ∧
        (∀ i, i < g.kernel_count → K1[i]? = K[i]?) := by
  intro es
  induction es with
  | nil =>
    intro s s1 g K hG hK hreg
    simp only [registerAll, Option.some.injEq] at hreg
    subst hreg
    exact ⟨by simp, K, by simpa using hG, hK, rfl, rfl, rfl, by simp, fun _ _ => rfl⟩
  | cons e es ih =>
    intro s s1 g K hG hK hreg
    by_cases hlt : g.kernel_count < K.length
    · rw [registerAll, __hipRegisterFunction_state s fatbin e g K hG hK hlt] at hreg
      obtain ⟨hle, K1, h1, h2, h3, h4, h5, h6, h7⟩ := ih _ s1
        { g with kernel_count := g.kernel_count + 1 } (K.set g.kernel_count e) rfl rfl hreg
      simp only [List.length_set] at hle h5
      refine ⟨by simp only [List.length_cons]; omega, K1, ?_, h2, h3, h4, h5, ?_, ?_⟩
      · rw [h1]
        simp only [List.length_cons, Option.some.injEq, hipi_global_s.mk.injEq, and_true]
        omega
      · intro i hi
        cases i with
        | zero =>
          have := h7 g.kernel_count (Nat.lt_succ_self _)
          simpa [List.getElem?_set_self hlt] using this
        | succ i =>
          have := h6 i (by simpa using hi)
          simpa [Nat.add_assoc, Nat.add_comm 1 i] using this
      · intro i hi
        have := h7 i (Nat.lt_succ_of_lt hi)
        rw [this, List.getElem?_set_ne (Nat.ne_of_gt hi)]
    · rw [registerAll, __hipRegisterFunction_full s fatbin e g K hG hK hlt] at hreg
      exact absurd hreg (by simp)

/-- The scan of `hipLaunchByPtr` over the first `n` entries of a table that has them: the
variable ends as the greatest index below `n` whose entry carries the identity, and keeps its
starting content when there is none. -/
theorem scanKID_spec (K : List hipi_kernel_s) (x KID0 : Nat) :
    ∀ n, n ≤ K.length →
      ∃ k, scanKID K x n KID0 = some k ∧
        ((k = KID0 ∧ ∀ i e, i < n → K[i]? = some e → e.khaddr ≠ x) ∨
         (k < n ∧ (∃ e, K[k]? = some e ∧ e.khaddr = x) ∧
           ∀ i e, k < i → i < n → K[i]? = some e → e.khaddr ≠ x)) := by
  intro n
  induction n with
  | zero =>
    intro _
    exact ⟨KID0, rfl, Or.inl ⟨rfl, fun i e hi => absurd hi (Nat.not_lt_zero i)⟩⟩
  | succ n ih =>
    intro hn
    obtain ⟨k, hk, hcase⟩ := ih (Nat.le_of_succ_le hn)
    have hlt : n < K.length := hn
    have hget : K[n]? = some K[n] := List.getElem?_eq_getElem hlt
    by_cases hx : K[n].khaddr = x
    · refine ⟨n, ?_, Or.inr ⟨Nat.lt_succ_self n, ⟨K[n], hget, hx⟩, ?_⟩⟩
      · simp only [scanKID, hk, hget, hx, if_true]
      · intro i e h1 h2
        omega
    · refine ⟨k, ?_, ?_⟩
      · simp only [scanKID, hk, hget, hx, if_false]
      · rcases hcase with ⟨rfl, hnone⟩ | ⟨hkn, hmatch, hafter⟩
        · refine Or.inl ⟨rfl, ?_⟩
          intro i e hi he
          rcases Nat.lt_succ_iff_lt_or_eq.mp hi with h | h
          · exact hnone i e h he
          · subst h
            rw [hget] at he
            cases he
            exact hx
        · refine Or.inr ⟨Nat.lt_succ_of_lt hkn, hmatch, ?_⟩
          intro i e h1 h2 he
          rcases Nat.lt_succ_iff_lt_or_eq.mp h2 with h | h
          · exact hafter i e h1 h he
          · subst h
            rw [hget] at he
            cases he
            exact hx

/-- C5. Start from a state with an allocated table and `kernel_count = 0`, and register the
entries `es`, whose launch-site identities are pairwise distinct. For every registered entry
`e` (the `j`-th), `hipLaunchByPtr(e.khaddr)` finds index `j`, where the table holds exactly
`e`, and is the call of `hipi_Launch` on `e` (after its debug line): the function resolved
in the module is `e.kernel_name`, whatever `KID` held before the loop. -/
theorem hipLaunchByPtr_dispatches_registered (drv : Driver) (fatbin : Nat) (s s1 : State)
    (g : hipi_global_s) (K : List hipi_kernel_s) (ldata : hipi_launchdata_s)
    (es : List hipi_kernel_s) (j : Nat) (e : hipi_kernel_s) (KID0 : Nat)
    (hG : s.hipi_Global = some g) (hcount : g.kernel_count = 0)
    (hK : s.hipi_Kernels = some K) (hL : s.hipi_Ldata = some ldata)
    (hreg : registerAll fatbin s es = some s1)
    (hdistinct : es.Pairwise (fun a b => a.khaddr ≠ b.khaddr))
    (hj : es[j]? = some e) :
    (∃ K1, s1.hipi_Kernels = some K1 ∧ K1[j]? = some e ∧
      scanKID K1 e.khaddr es.length KID0 = some j) ∧
    hipLaunchByPtr drv s1 e.khaddr KID0
      = dispatchOn drv s1 { g with kernel_count := es.length } e j e.khaddr ldata := by
  obtain ⟨hle, K1, h1, h2, h3, h4, h5, h6, -⟩ := registerAll_spec fatbin es s s1 g K hG hK hreg
  rw [hcount] at hle h1 h6
  simp only [Nat.zero_add, Nat.sub_zero] at hle h1 h6
  have hL1 : s1.hipi_Ldata = some ldata := h3.trans hL
  have hjlt : j < es.length := (List.getElem?_eq_some.mp hj).1
  have hKj : K1[j]? = some e := by rw [h6 j hjlt, hj]
  obtain ⟨k, hk, hcase⟩ := scanKID_spec K1 e.khaddr KID0 es.length (by omega)
  have hkj : k = j := by
    rcases hcase with ⟨-, hnone⟩ | ⟨hkn, ⟨e2, he2, hx⟩, -⟩
    · exact absurd rfl (hnone j e hjlt hKj)
    · rw [h6 k hkn] at he2
      rw [List.getElem?_eq_getElem hkn] at he2
      rw [List.getElem?_eq_getElem hjlt] at hj
      cases he2
      cases hj
      rcases Nat.lt_trichotomy k j with h | h | h
      · exact absurd hx ((List.pairwise_iff_getElem.mp hdistinct) k j hkn hjlt h)
      · exact h
      · exact absurd hx.symm ((List.pairwise_iff_getElem.mp hdistinct) j k hjlt hkn h)
  subst hkj
  refine ⟨⟨K1, h2, hKj, hk⟩, ?_⟩
  simp only [hipLaunchByPtr, dispatchOn, h1, h2, hL1, hk, hKj]

/-- C5, on the sample table: identities 5, 6 and 7 are registered and 6 is launched. -/
theorem hipLaunchByPtr_dispatches_registered_witness :
    (∃ K1, sampleThreeKernels.hipi_Kernels = some K1 ∧ K1[1]? = some (sampleKernel 6) ∧
      scanKID K1 (sampleKernel 6).khaddr 3 99 = some 1) ∧
    hipLaunchByPtr sampleDriver sampleThreeKernels (sampleKernel 6).khaddr 99
      = dispatchOn sampleDriver sampleThreeKernels { sampleGlobal with kernel_count := 3 }
          (sampleKernel 6) 1 (sampleKernel 6).khaddr sampleLdata :=
  hipLaunchByPtr_dispatches_registered sampleDriver 0 sampleRegistered sampleThreeKernels
    sampleGlobal sampleTable sampleLdata [sampleKernel 5, sampleKernel 6, sampleKernel 7] 1
    (sampleKernel 6) 99 rfl rfl rfl rfl (by decide) (by decide) (by decide)

/-! ## The launch staging buffer -/

/-- A call of `hipConfigureCall` on an allocated staging buffer. -/
theorem hipConfigureCall_returned (s : State) (ldata : hipi_launchdata_s) (gridDim blockDim : dim3)
    (smsize : Int) (stream : Nat) (hL : s.hipi_Ldata = some ldata) :
    ∃ lg, hipConfigureCall s gridDim blockDim smsize stream
      = .returned (hipSuccess, s.withLdata (configured ldata gridDim blockDim smsize stream))
          lg [] := by
  cases hd : s.hipi_EnableDebug <;>
    simp [hipConfigureCall, hL, hd, DEBUG, emit, bind, pure, Result.bind, Result.prepend,
      State.withLdata, configured]

/-- C6. `hipConfigureCall` overwrites: on an allocated staging buffer, the call with the
second configuration returns success and leaves the same globals whether or not a call with
a first configuration came before it; the staged grid, block, shared-memory size and stream
are those of the second call, the accumulated-argument length is 0 and the argument bytes
are untouched, so a following `hipLaunchByPtr` behaves the same in both cases. -/
theorem hipConfigureCall_overwrite (s : State) (ldata : hipi_launchdata_s)
    (gridDim1 blockDim1 : dim3) (smsize1 : Int) (stream1 : Nat)
    (gridDim2 blockDim2 : dim3) (smsize2 : Int) (stream2 : Nat)
    (hL : s.hipi_Ldata = some ldata) :
    ∃ s1 s2 lg1 lg12 lg2,
      hipConfigureCall s gridDim1 blockDim1 smsize1 stream1 = .returned (hipSuccess, s1) lg1 [] ∧
      hipConfigureCall s1 gridDim2 blockDim2 smsize2 stream2
        = .returned (hipSuccess, s2) lg12 [] ∧
      hipConfigureCall s gridDim2 blockDim2 smsize2 stream2 = .returned (hipSuccess, s2) lg2 [] ∧
      s2.hipi_Ldata = some
        { gridDim := gridDim2, blockDim := blockDim2, smsize := smsize2, stream := stream2,
          argstruct := ldata.argstruct, argstructsize := 0 } ∧
      s2.hipi_Global = s.hipi_Global ∧ s2.hipi_Kernels = s.hipi_Kernels ∧
      s2.hipi_EnableDebug = s.hipi_EnableDebug := by
  obtain ⟨lg1, h1⟩ := hipConfigureCall_returned s ldata gridDim1 blockDim1 smsize1 stream1 hL
  obtain ⟨lg2, h2⟩ := hipConfigureCall_returned s ldata gridDim2 blockDim2 smsize2 stream2 hL
  obtain ⟨lg12, h12⟩ := hipConfigureCall_returned
    (s.withLdata (configured ldata gridDim1 blockDim1 smsize1 stream1))
    (configured ldata gridDim1 blockDim1 smsize1 stream1)
    gridDim2 blockDim2 smsize2 stream2 rfl
  exact ⟨_, _, lg1, lg12, lg2, h1, h12, h2, rfl, rfl, rfl, rfl⟩

/-- C6, on the sample state: a 2x3x4 grid is configured, then a 9x1x1 grid. -/
theorem hipConfigureCall_overwrite_witness :
    ∃ s1 s2 lg1 lg12 lg2,
      hipConfigureCall sampleThreeKernels ⟨2, 3, 4⟩ ⟨32, 1, 1⟩ 128 5
        = .returned (hipSuccess, s1) lg1 [] ∧
      hipConfigureCall s1 ⟨9, 1, 1⟩ ⟨64, 2, 1⟩ 0 0 = .returned (hipSuccess, s2) lg12 [] ∧
      hipConfigureCall sampleThreeKernels ⟨9, 1, 1⟩ ⟨64, 2, 1⟩ 0 0
        = .returned (hipSuccess, s2) lg2 [] ∧
      s2.hipi_Ldata = some
        { gridDim := ⟨9, 1, 1⟩, blockDim := ⟨64, 2, 1⟩, smsize := 0, stream := 0,
          argstruct := sampleLdata.argstruct, argstructsize := 0 } ∧
      s2.hipi_Global = sampleThreeKernels.hipi_Global ∧
      s2.hipi_Kernels = sampleThreeKernels.hipi_Kernels ∧
      s2.hipi_EnableDebug = sampleThreeKernels.hipi_EnableDebug :=
  hipConfigureCall_overwrite sampleThreeKernels sampleLdata ⟨2, 3, 4⟩ ⟨32, 1, 1⟩ 128 5
    ⟨9, 1, 1⟩ ⟨64, 2, 1⟩ 0 0 rfl

theorem memcpy_length (dest : List Nat) (offset : Nat) (src : Nat → Nat) (n : Nat) :
    (memcpy dest offset src n).length = dest.length := by
  induction n with
  | zero => rfl
  | succ n ih => simp only [memcpy, List.length_set, ih]

/-- Outside the copied range `memcpy` leaves the buffer as it was. -/
theorem memcpy_getElem?_outside (dest : List Nat) (offset : Nat) (src : Nat → Nat) (n i : Nat)
    (h : i < offset ∨ offset + n ≤ i) : (memcpy dest offset src n)[i]? = dest[i]? := by
  induction n with
  | zero => rfl
  | succ n ih =>
    simp only [memcpy]
    rw [List.getElem?_set_ne (by omega)]
    exact ih (by omega)

/-- Inside the copied range the buffer holds the source bytes. -/
theorem memcpy_getElem?_inside (dest : List Nat) (offset : Nat) (src : Nat → Nat) (n i : Nat)
    (hi : i < n) (hcap : offset + n ≤ dest.length) :
    (memcpy dest offset src n)[offset + i]? = some (src i) := by
  induction n with
  | zero => exact absurd hi (Nat.not_lt_zero i)
  | succ n ih =>
    simp only [memcpy]
    by_cases h : i = n
    · subst h
      exact List.getElem?_set_self (by rw [memcpy_length]; omega)
    · rw [List.getElem?_set_ne (by omega)]
      exact ih (by omega) (by omega)

/-- The loads of a call `hipSetupArgument(arg, size, offset)` are all readable: the `size`
source bytes of the copy, and the eight bytes of `*arg` when that expression is evaluated,
that is when `size` is 4 or the debug flag is set. -/
theorem hipSetupArgument_returned (s : State) (mem : Memory) (arg size offset : Nat)
    (ldata : hipi_launchdata_s) (hL : s.hipi_Ldata = some ldata)
    (hcap : offset + size ≤ ldata.argstruct.length) (hsrc : mem.canLoad arg size = true)
    (hval : size = 4 ∨ s.hipi_EnableDebug = true → mem.canLoad arg 8 = true) :
    ∃ lg, hipSetupArgument s mem arg size offset
      = .returned
          (hipSuccess,
           s.withLdata
              { ldata with
                argstruct := memcpy ldata.argstruct offset (fun i => mem.byte (arg + i)) size
                argstructsize := ldata.argstructsize + (offset + size) }) lg [] := by
  by_cases h4 : size = 4
  · subst h4
    have h8 := hval (Or.inl rfl)
    cases hd : s.hipi_EnableDebug <;>
      simp [hipSetupArgument, derefArg, hL, hcap, hsrc, h8, hd, DEBUG, emit, bind, pure,
        Result.bind, Result.prepend, State.withLdata]
  · cases hd : s.hipi_EnableDebug
    · simp [hipSetupArgument, hL, hcap, hsrc, h4, hd, bind, pure, Result.bind,
        Result.prepend, State.withLdata]
    · have h8 := hval (Or.inr hd)
      simp [hipSetupArgument, derefArg, hL, hcap, hsrc, h8, h4, hd, emit, bind, pure,
        Result.bind, Result.prepend, State.withLdata]

/-- A call of `hipSetupArgument` whose `*arg` is evaluated has no defined behaviour when the
eight bytes at `arg` are not all readable, whatever `size` is. -/
theorem hipSetupArgument_overread (s : State) (mem : Memory) (arg size offset : Nat)
    (heval : size = 4 ∨ s.hipi_EnableDebug = true) (h8 : mem.canLoad arg 8 = false) :
    hipSetupArgument s mem arg size offset = .undefined := by
  cases hL : s.hipi_Ldata with
  | none => simp [hipSetupArgument, hL]
  | some ldata =>
    by_cases hc : offset + size ≤ ldata.argstruct.length ∧ mem.canLoad arg size = true
    · by_cases h4 : size = 4
      · subst h4
        simp [hipSetupArgument, derefArg, hL, hc, h8, bind, Result.bind]
      · have hd : s.hipi_EnableDebug = true := heval.resolve_left h4
        simp [hipSetupArgument, derefArg, hL, hc, h8, h4, hd, bind, Result.bind]
    · simp only [hipSetupArgument, hL, hc, if_false]

/-- A call of `hipSetupArgument` that returns has replaced the staging buffer only. -/
theorem hipSetupArgument_state (s s1 : State) (mem : Memory) (arg size offset : Nat)
    (h : (hipSetupArgument s mem arg size offset).state? = some s1) :
    ∃ ldata1, s1 = s.withLdata ldata1 := by
  cases hL : s.hipi_Ldata with
  | none => simp [hipSetupArgument, hL, Result.state?] at h
  | some ldata =>
    by_cases hc : offset + size ≤ ldata.argstruct.length ∧ mem.canLoad arg size = true
    · by_cases heval : size = 4 ∨ s.hipi_EnableDebug = true
      · cases h8 : mem.canLoad arg 8 with
        | false =>
          rw [hipSetupArgument_overread s mem arg size offset heval h8] at h
          simp [Result.state?] at h
        | true =>
          obtain ⟨lg, hr⟩ := hipSetupArgument_returned s mem arg size offset ldata hL hc.1 hc.2
            (fun _ => h8)
          rw [hr] at h
          simp only [Result.state?, Option.some.injEq] at h
          exact ⟨_, h.symm⟩
      · obtain ⟨lg, hr⟩ := hipSetupArgument_returned s mem arg size offset ldata hL hc.1 hc.2
          (fun hh => absurd hh heval)
        rw [hr] at h
        simp only [Result.state?, Option.some.injEq] at h
        exact ⟨_, h.symm⟩
    · simp [hipSetupArgument, hL, hc, Result.state?] at h

/-- When the loads of the call are readable (the `size` source bytes, and the eight bytes of
`*arg` when `size` is 4 or the debug flag is set) and `offset + size` is within the capacity
of the argument buffer, `hipSetupArgument` returns `hipSuccess`; the buffer bytes
`[offset, offset + size)` are then the first `size` bytes at `arg`, every other buffer byte
and the capacity are unchanged, `gridDim`, `blockDim`, `smsize` and `stream` are unchanged,
`argstructsize` is its previous value plus `offset + size`, and the other globals are
untouched. -/
theorem hipSetupArgument_frame_of_readable (s : State) (mem : Memory) (arg size offset : Nat)
    (ldata : hipi_launchdata_s) (hL : s.hipi_Ldata = some ldata)
    (hcap : offset + size ≤ ldata.argstruct.length) (hsrc : mem.canLoad arg size = true)
    (hval : size = 4 ∨ s.hipi_EnableDebug = true → mem.canLoad arg 8 = true) :
    ∃ lg ldata1, hipSetupArgument s mem arg size offset
        = .returned (hipSuccess, s.withLdata ldata1) lg [] ∧
      (∀ i, i < size → ldata1.argstruct[offset + i]? = some (mem.byte (arg + i))) ∧
      (∀ i, i < offset ∨ offset + size ≤ i → ldata1.argstruct[i]? = ldata.argstruct[i]?) ∧
      ldata1.argstruct.length = ldata.argstruct.length ∧
      ldata1.gridDim = ldata.gridDim ∧ ldata1.blockDim = ldata.blockDim ∧
      ldata1.smsize = ldata.smsize ∧ ldata1.stream = ldata.stream ∧
      ldata1.argstructsize = ldata.argstructsize + (offset + size) := by
  obtain ⟨lg, hrun⟩ := hipSetupArgument_returned s mem arg size offset ldata hL hcap hsrc hval
  refine ⟨lg, _, hrun, ?_, ?_, ?_, rfl, rfl, rfl, rfl, rfl⟩
  · intro i hi
    exact memcpy_getElem?_inside _ _ _ _ _ hi hcap
  · intro i hi
    exact memcpy_getElem?_outside _ _ _ _ _ hi
  · exact memcpy_length _ _ _ _

/-- C8 (the code at a failing input). The staging buffer has room for 16 bytes and readable
memory ends at address 1002. A four-byte argument stored at 998..1001 is readable and fits
at offset 0, yet `hipSetupArgument(998, 4, 0)` has no defined behaviour even with the debug
flag clear: on the `size == 4` branch `*arg` is loaded as an `unsigned long long`, four bytes
past the argument. With the debug flag set the same holds for a one-byte argument at 1001,
whose `*arg` is loaded for the log line; with the flag clear that call returns
`hipSuccess`. -/
theorem hipSetupArgument_reads_past_argument :
    sampleLdata.argstruct.length = 16 ∧
    sampleShortArgument.canLoad 998 4 = true ∧
    hipSetupArgument (sampleThreeKernels.withDebug false) sampleShortArgument 998 4 0
      = .undefined ∧
    sampleShortArgument.canLoad 1001 1 = true ∧
    hipSetupArgument (sampleThreeKernels.withDebug true) sampleShortArgument 1001 1 0
      = .undefined ∧
    (hipSetupArgument (sampleThreeKernels.withDebug false) sampleShortArgument 1001 1 0).map
        (fun r => r.1) = .returned hipSuccess [] [] := by
  decide

/-! ## Launch -/

/-- The three ways `hipi_Launch` can end, with the calls made in each. -/
theorem hipi_Launch_cases (drv : Driver) (dbg : Bool) (g : hipi_global_s) (e : hipi_kernel_s)
    (l : hipi_launchdata_s) :
    (∃ lg, (drv.hipModuleGetFunction g.hip_module e.kernel_name).1 ≠ hipSuccess ∧
      hipi_Launch drv dbg g e l
        = .exited 1 lg [.hipModuleGetFunction g.hip_module e.kernel_name]) ∨
    (∃ lg, (drv.hipModuleGetFunction g.hip_module e.kernel_name).1 = hipSuccess ∧
      drv.hipModuleLaunchKernel
        (launchRequest (drv.hipModuleGetFunction g.hip_module e.kernel_name).2 l) ≠ hipSuccess ∧
      hipi_Launch drv dbg g e l
        = .exited 1 lg
            [.hipModuleGetFunction g.hip_module e.kernel_name,
             .hipModuleLaunchKernel
               (launchRequest (drv.hipModuleGetFunction g.hip_module e.kernel_name).2 l)]) ∨
    (∃ lg, (drv.hipModuleGetFunction g.hip_module e.kernel_name).1 = hipSuccess ∧
      drv.hipModuleLaunchKernel
        (launchRequest (drv.hipModuleGetFunction g.hip_module e.kernel_name).2 l) = hipSuccess ∧
      hipi_Launch drv dbg g e l
        = .returned hipSuccess lg
            [.hipModuleGetFunction g.hip_module e.kernel_name,
             .hipModuleLaunchKernel
               (launchRequest (drv.hipModuleGetFunction g.hip_module e.kernel_name).2 l),
             .hipDeviceSynchronize]) := by
  by_cases h1 : (drv.hipModuleGetFunction g.hip_module e.kernel_name).1 = hipSuccess
  · by_cases h2 : drv.hipModuleLaunchKernel
        (launchRequest (drv.hipModuleGetFunction g.hip_module e.kernel_name).2 l) = hipSuccess
    · refine Or.inr (Or.inr ?_)
      unfold launchRequest at h2
      cases dbg <;>
        simp [hipi_Launch, launchRequest, ErrorCheckHIP, DEBUG, emit, perform, exit, bind, pure,
          Result.bind, Result.prepend, h1, h2]
    · refine Or.inr (Or.inl ?_)
      unfold launchRequest at h2
      cases dbg <;>
        simp [hipi_Launch, launchRequest, ErrorCheckHIP, DEBUG, emit, perform, exit, bind, pure,
          Result.bind, Result.prepend, h1, h2]
  · refine Or.inl ?_
    cases dbg <;>
      simp [hipi_Launch, ErrorCheckHIP, DEBUG, emit, perform, exit, bind, pure,
        Result.bind, Result.prepend, h1]

/-- Once the scan has settled on an index inside the table, `hipLaunchByPtr` is the dispatch
on the entry found there. -/
theorem hipLaunchByPtr_resolved (drv : Driver) (s : State) (g : hipi_global_s)
    (K : List hipi_kernel_s) (ldata : hipi_launchdata_s) (khaddr KID0 k : Nat)
    (e : hipi_kernel_s) (hG : s.hipi_Global = some g) (hK : s.hipi_Kernels = some K)
    (hL : s.hipi_Ldata = some ldata) (hk : scanKID K khaddr g.kernel_count KID0 = some k)
    (he : K[k]? = some e) :
    hipLaunchByPtr drv s khaddr KID0 = dispatchOn drv s g e k khaddr ldata := by
  simp only [hipLaunchByPtr, dispatchOn, hG, hK, hL, hk, he]

/-- A dispatch ends the way its `hipi_Launch` ends, with the same calls, and hands back the
globals it was given. -/
theorem dispatchOn_cases (drv : Driver) (s : State) (g : hipi_global_s) (e : hipi_kernel_s)
    (k khaddr : Nat) (l : hipi_launchdata_s) :
    (∀ rc lg ef, hipi_Launch drv s.hipi_EnableDebug g e l = .returned rc lg ef →
      ∃ lg1, dispatchOn drv s g e k khaddr l = .returned (rc, s) lg1 ef) ∧
    (∀ st lg ef, hipi_Launch drv s.hipi_EnableDebug g e l = .exited st lg ef →
      ∃ lg1, dispatchOn drv s g e k khaddr l = .exited st lg1 ef) := by
  constructor
  · intro rc lg ef h
    cases hd : s.hipi_EnableDebug <;> rw [hd] at h <;>
      simp [dispatchOn, hd, h, DEBUG, emit, bind, pure, Result.bind, Result.prepend]
  · intro st lg ef h
    cases hd : s.hipi_EnableDebug <;> rw [hd] at h <;>
      simp [dispatchOn, hd, h, DEBUG, emit, bind, pure, Result.bind, Result.prepend]

/-- A call of `hipLaunchByPtr` that returns hands back the globals it started from. -/
theorem hipLaunchByPtr_returned_state (drv : Driver) (s : State) (khaddr KID0 : Nat)
    (rc : hipError_t) (s1 : State) (lg : List LogItem) (ef : List Effect)
    (h : hipLaunchByPtr drv s khaddr KID0 = .returned (rc, s1) lg ef) : s1 = s := by
  unfold hipLaunchByPtr at h
  split at h
  · rename_i global kernels ldata _ _ _
    split at h
    · cases h
    · rename_i KID _
      split at h
      · cases h
      · rename_i kernel _
        rcases hipi_Launch_cases drv s.hipi_EnableDebug global kernel ldata with
          ⟨lg1, -, h1⟩ | ⟨lg1, -, -, h1⟩ | ⟨lg1, -, -, h1⟩
        · obtain ⟨lg2, h2⟩ := (dispatchOn_cases drv s global kernel KID khaddr ldata).2 _ _ _ h1
          unfold dispatchOn at h2
          rw [h2] at h
          cases h
        · obtain ⟨lg2, h2⟩ := (dispatchOn_cases drv s global kernel KID khaddr ldata).2 _ _ _ h1
          unfold dispatchOn at h2
          rw [h2] at h
          cases h
        · obtain ⟨lg2, h2⟩ := (dispatchOn_cases drv s global kernel KID khaddr ldata).1 _ _ _ h1
          unfold dispatchOn at h2
          rw [h2] at h
          cases h
          rfl
  · cases h

/-- When no entry below `kernel_count` carries the identity, the scan leaves `KID` as it was
and `hipLaunchByPtr` is the dispatch on whatever entry sits at that index. -/
theorem hipLaunchByPtr_unmatched (drv : Driver) (s : State) (g : hipi_global_s)
    (K : List hipi_kernel_s) (ldata : hipi_launchdata_s) (khaddr KID0 : Nat)
    (e : hipi_kernel_s) (hG : s.hipi_Global = some g) (hK : s.hipi_Kernels = some K)
    (hL : s.hipi_Ldata = some ldata) (hcap : g.kernel_count ≤ K.length)
    (hnone : ∀ i e, i < g.kernel_count → K[i]? = some e → e.khaddr ≠ khaddr)
    (he : K[KID0]? = some e) :
    hipLaunchByPtr drv s khaddr KID0 = dispatchOn drv s g e KID0 khaddr ldata := by
  obtain ⟨k, hk, hcase⟩ := scanKID_spec K khaddr KID0 g.kernel_count hcap
  rcases hcase with ⟨rfl, -⟩ | ⟨hkn, ⟨e2, he2, hx⟩, -⟩
  · exact hipLaunchByPtr_resolved drv s g K ldata khaddr k k e hG hK hL hk he
  · exact absurd hx (hnone k e2 hkn he2)

/-- C9. `hipLaunchByPtr` reads the staging buffer and does not reset it. For a registered
identity on allocated globals the call either ends in `exit(1)` (the runtime refused) or
returns `hipSuccess` with the globals, staging buffer included, exactly as before; whenever
it returns, a second launch without `hipConfigureCall` in between is the same call on the
same state and gives the same result, launch request included. When the runtime accepts,
the call does return, and the request it issued is the one assembled from the staging
buffer as it stood before the call. -/
theorem hipLaunchByPtr_keeps_staging (drv : Driver) (s : State) (g : hipi_global_s)
    (K : List hipi_kernel_s) (ldata : hipi_launchdata_s) (khaddr KID0 : Nat)
    (hG : s.hipi_Global = some g) (hK : s.hipi_Kernels = some K)
    (hL : s.hipi_Ldata = some ldata) (hreg : Registered g K khaddr) :
    (∀ rc s1 lg ef, hipLaunchByPtr drv s khaddr KID0 = .returned (rc, s1) lg ef →
      s1 = s ∧ s1.hipi_Ldata = some ldata ∧
      hipLaunchByPtr drv s1 khaddr KID0 = .returned (rc, s1) lg ef) ∧
    ((∃ lg ef, hipLaunchByPtr drv s khaddr KID0 = .exited 1 lg ef) ∨
      ∃ lg ef, hipLaunchByPtr drv s khaddr KID0 = .returned (hipSuccess, s) lg ef) ∧
    (DriverAccepts drv →
      ∃ lg e, e ∈ K ∧ e.khaddr = khaddr ∧
        hipLaunchByPtr drv s khaddr KID0
          = .returned (hipSuccess, s) lg
              [.hipModuleGetFunction g.hip_module e.kernel_name,
               .hipModuleLaunchKernel
                 (launchRequest (drv.hipModuleGetFunction g.hip_module e.kernel_name).2 ldata),
               .hipDeviceSynchronize]) := by
  obtain ⟨hcap, i, hi, hKi⟩ := hreg
  obtain ⟨k, hk, hcase⟩ := scanKID_spec K khaddr KID0 g.kernel_count hcap
  have hfound : ∃ e, K[k]? = some e ∧ e.khaddr = khaddr := by
    rcases hcase with ⟨-, hnone⟩ | ⟨-, hm, -⟩
    · have hlt : i < K.length := by omega
      rw [List.getElem?_eq_getElem hlt] at hKi
      simp only [Option.map_some', Option.some.injEq] at hKi
      exact absurd hKi (hnone i K[i] hi (List.getElem?_eq_getElem hlt))
    · exact hm
  obtain ⟨e, he, hx⟩ := hfound
  have hrun := hipLaunchByPtr_resolved drv s g K ldata khaddr KID0 k e hG hK hL hk he
  have hd := dispatchOn_cases drv s g e k khaddr ldata
  refine ⟨?_, ?_, ?_⟩
  · intro rc s1 lg ef h
    have := hipLaunchByPtr_returned_state drv s khaddr KID0 rc s1 lg ef h
    subst this
    exact ⟨rfl, hL, h⟩
  · rcases hipi_Launch_cases drv s.hipi_EnableDebug g e ldata with
      ⟨lg1, -, h1⟩ | ⟨lg1, -, -, h1⟩ | ⟨lg1, -, -, h1⟩
    · obtain ⟨lg2, h2⟩ := hd.2 _ _ _ h1
      exact Or.inl ⟨lg2, _, hrun.trans h2⟩
    · obtain ⟨lg2, h2⟩ := hd.2 _ _ _ h1
      exact Or.inl ⟨lg2, _, hrun.trans h2⟩
    · obtain ⟨lg2, h2⟩ := hd.1 _ _ _ h1
      exact Or.inr ⟨lg2, _, hrun.trans h2⟩
  · intro hacc
    rcases hipi_Launch_cases drv s.hipi_EnableDebug g e ldata with
      ⟨lg1, hne, -⟩ | ⟨lg1, -, hne, -⟩ | ⟨lg1, -, -, h1⟩
    · exact absurd (hacc.1 _ _) hne
    · exact absurd (hacc.2 _) hne
    · obtain ⟨lg2, h2⟩ := hd.1 _ _ _ h1
      exact ⟨lg2, e, List.getElem?_mem he, hx, hrun.trans h2⟩

/-- C9, on the sample state with three kernels: identity 6 is launched. -/
theorem hipLaunchByPtr_keeps_staging_witness :
    (∀ rc s1 lg ef, hipLaunchByPtr sampleDriver sampleThreeKernels 6 99 = .returned (rc, s1) lg ef →
      s1 = sampleThreeKernels ∧ s1.hipi_Ldata = some sampleLdata ∧
      hipLaunchByPtr sampleDriver s1 6 99 = .returned (rc, s1) lg ef) ∧
    ((∃ lg ef, hipLaunchByPtr sampleDriver sampleThreeKernels 6 99 = .exited 1 lg ef) ∨
      ∃ lg ef, hipLaunchByPtr sampleDriver sampleThreeKernels 6 99
        = .returned (hipSuccess, sampleThreeKernels) lg ef) ∧
    (DriverAccepts sampleDriver →
      ∃ lg e, e ∈ [sampleKernel 5, sampleKernel 6, sampleKernel 7, sampleKernel 3] ∧
        e.khaddr = 6 ∧
        hipLaunchByPtr sampleDriver sampleThreeKernels 6 99
          = .returned (hipSuccess, sampleThreeKernels) lg
              [.hipModuleGetFunction 281 e.kernel_name,
               .hipModuleLaunchKernel
                 (launchRequest (sampleDriver.hipModuleGetFunction 281 e.kernel_name).2
                   sampleLdata),
               .hipDeviceSynchronize]) :=
  hipLaunchByPtr_keeps_staging sampleDriver sampleThreeKernels { sampleGlobal with kernel_count := 3 }
    [sampleKernel 5, sampleKernel 6, sampleKernel 7, sampleKernel 3] sampleLdata 6 99 rfl rfl rfl
    (by decide)

/-! ## Unregistration -/

/-- What `__hipUnregisterFatBinary` does: it returns null, `hipi_Global` is null afterwards,
the other globals are as before. -/
theorem __hipUnregisterFatBinary_returned (s : State) (fatbin : Nat) :
    ∃ lg ef, __hipUnregisterFatBinary s fatbin
      = .returned (0, { s with hipi_Global := none }) lg ef := by
  cases hG : s.hipi_Global <;> cases hd : s.hipi_EnableDebug <;>
    simp [__hipUnregisterFatBinary, hG, hd, DEBUG, emit, perform, bind, pure, Result.bind,
      Result.prepend] <;>
    (cases s; simp_all)

/-- C11 (as stated, refuted). On the sample state with three kernels, after
`__hipUnregisterFatBinary` neither `hipLaunchByPtr` of a registered identity nor
`__hipRegisterFunction` has a defined outcome: both dereference the null `hipi_Global`, and
no error is reported. -/
theorem unregister_then_use_not_reported :
    (__hipUnregisterFatBinary sampleThreeKernels 0).state? = some sampleUnregistered ∧
    (hipLaunchByPtr sampleDriver sampleUnregistered 6 0).isDefined = false ∧
    (__hipRegisterFunction sampleUnregistered 0 8 8 8 8 8 8 8 8 8).isDefined = false := by
  decide

/-- C11 (amended). `__hipUnregisterFatBinary` returns null and leaves `hipi_Global` null
and the kernel table and the staging buffer untouched; every further
`__hipRegisterFunction` or `hipLaunchByPtr` then dereferences the null `hipi_Global`: the
call has no defined behaviour, nothing is reported and no state is handed back. -/
theorem unregister_then_use_undefined (s : State) (fatbin : Nat) :
    ∃ s1 lg ef, __hipUnregisterFatBinary s fatbin = .returned (0, s1) lg ef ∧
      s1.hipi_Global = none ∧ s1.hipi_Kernels = s.hipi_Kernels ∧
      s1.hipi_Ldata = s.hipi_Ldata ∧
      (∀ fb khaddr host_name kernel_name thread_limit tid bid bDim gDim wSize,
        __hipRegisterFunction s1 fb khaddr host_name kernel_name thread_limit tid bid bDim
          gDim wSize = .undefined) ∧
      (∀ drv khaddr KID0, hipLaunchByPtr drv s1 khaddr KID0 = .undefined) := by
  obtain ⟨lg, ef, h⟩ := __hipUnregisterFatBinary_returned s fatbin
  refine ⟨_, lg, ef, h, rfl, rfl, rfl, ?_, ?_⟩
  · intros
    simp only [__hipRegisterFunction]
  · intros
    simp only [hipLaunchByPtr]

/-! ## The debug switch -/

/-- C12. For every value of the environment variable `HIP_DEBUG`, `hipi_InitDebug` sets the
debug flag if and only if the variable is set and its value is not exactly `"0"`, whatever
the flag held before; so the empty string, `"00"` and `"false"` set it, and an unset
variable and `"0"` clear it. -/
theorem hipi_InitDebug_spec (s : State) (nccl_debug : Option String) :
    ((s.withDebug (hipi_InitDebug nccl_debug)).hipi_EnableDebug = true
      ↔ ∃ v, nccl_debug = some v ∧ v ≠ "0") ∧
    (s.withDebug true).withDebug (hipi_InitDebug nccl_debug)
      = (s.withDebug false).withDebug (hipi_InitDebug nccl_debug) ∧
    hipi_InitDebug (some "") = true ∧ hipi_InitDebug (some "00") = true ∧
    hipi_InitDebug (some "false") = true ∧ hipi_InitDebug (some "0") = false ∧
    hipi_InitDebug none = false := by
  refine ⟨?_, rfl, by decide, by decide, by decide, by decide, rfl⟩
  cases nccl_debug with
  | none => simp [hipi_InitDebug, State.withDebug]
  | some v =>
    by_cases h : v = "0" <;> simp [hipi_InitDebug, State.withDebug, h]

/-! ## Shadowing in the registry -/

/-- C13. When the identity `x` is carried by at least one entry below `kernel_count`,
`hipLaunchByPtr(x)` resolves the greatest index `k < kernel_count` whose entry carries `x`
(no later entry below the count carries it) and dispatches `hipi_Launch` on the entry at
that index, whatever `KID` held before the loop: an identity registered again shadows the
earlier entry. -/
theorem hipLaunchByPtr_last_match (drv : Driver) (s : State) (g : hipi_global_s)
    (K : List hipi_kernel_s) (ldata : hipi_launchdata_s) (x KID0 : Nat)
    (hG : s.hipi_Global = some g) (hK : s.hipi_Kernels = some K)
    (hL : s.hipi_Ldata = some ldata) (hreg : Registered g K x) :
    ∃ k e, k < g.kernel_count ∧ K[k]? = some e ∧ e.khaddr = x ∧
      (∀ i e1, k < i → i < g.kernel_count → K[i]? = some e1 → e1.khaddr ≠ x) ∧
      scanKID K x g.kernel_count KID0 = some k ∧
      hipLaunchByPtr drv s x KID0 = dispatchOn drv s g e k x ldata := by
  obtain ⟨hcap, i, hi, hKi⟩ := hreg
  obtain ⟨k, hk, hcase⟩ := scanKID_spec K x KID0 g.kernel_count hcap
  rcases hcase with ⟨-, hnone⟩ | ⟨hkn, ⟨e, he, hx⟩, hafter⟩
  · have hlt : i < K.length := by omega
    rw [List.getElem?_eq_getElem hlt] at hKi
    simp only [Option.map_some', Option.some.injEq] at hKi
    exact absurd hKi (hnone i K[i] hi (List.getElem?_eq_getElem hlt))
  · exact ⟨k, e, hkn, he, hx, hafter, hk,
      hipLaunchByPtr_resolved drv s g K ldata x KID0 k e hG hK hL hk he⟩

/-- C13, on the sample table where identity 6 is registered at indices 0 and 2: index 2 is
resolved and the kernel named 20 is launched; the state is the one three registrations
produce. -/
theorem hipLaunchByPtr_last_match_witness :
    (∃ k e, k < 3 ∧
      [namedKernel 6 10, namedKernel 5 11, namedKernel 6 20, sampleKernel 3][k]? = some e ∧
      e.khaddr = 6 ∧
      (∀ i e1, k < i → i < 3 →
        [namedKernel 6 10, namedKernel 5 11, namedKernel 6 20, sampleKernel 3][i]? = some e1 →
        e1.khaddr ≠ 6) ∧
      scanKID [namedKernel 6 10, namedKernel 5 11, namedKernel 6 20, sampleKernel 3] 6 3 99
        = some k ∧
      hipLaunchByPtr sampleDriver sampleShadowed 6 99
        = dispatchOn sampleDriver sampleShadowed { sampleGlobal with kernel_count := 3 } e k 6
            sampleLdata) ∧
    registerAll 0 sampleRegistered [namedKernel 6 10, namedKernel 5 11, namedKernel 6 20]
      = some sampleShadowed ∧
    (hipLaunchByPtr sampleDriver sampleShadowed 6 99).effects.head?
      = some (.hipModuleGetFunction 281 20) :=
  ⟨hipLaunchByPtr_last_match sampleDriver sampleShadowed { sampleGlobal with kernel_count := 3 }
      [namedKernel 6 10, namedKernel 5 11, namedKernel 6 20, sampleKernel 3] sampleLdata 6 99
      rfl rfl rfl (by decide),
    by decide, by decide⟩

/-! ## The registry is append-only -/

theorem Result.state?_eq_some {α : Type} (r : Result (α × State)) (s1 : State)
    (h : r.state? = some s1) : ∃ a lg ef, r = .returned (a, s1) lg ef := by
  cases r with
  | returned v lg ef =>
    simp only [Result.state?, Option.some.injEq] at h
    exact ⟨v.1, lg, ef, by rw [← h]⟩
  | exited st lg ef => simp [Result.state?] at h
  | undefined => simp [Result.state?] at h
  | outOfFuel => simp [Result.state?] at h

/-- A call of `hipConfigureCall` that returns leaves the runtime context and the kernel
table as they were. -/
theorem hipConfigureCall_keeps_registry (s s1 : State) (gridDim blockDim : dim3) (smsize : Int)
    (stream : Nat) (h : (hipConfigureCall s gridDim blockDim smsize stream).state? = some s1) :
    s1.hipi_Global = s.hipi_Global ∧ s1.hipi_Kernels = s.hipi_Kernels := by
  cases hL : s.hipi_Ldata with
  | none => simp [hipConfigureCall, hL, Result.state?] at h
  | some l =>
    obtain ⟨lg, hr⟩ := hipConfigureCall_returned s l gridDim blockDim smsize stream hL
    rw [hr] at h
    simp only [Result.state?, Option.some.injEq] at h
    subst h
    exact ⟨rfl, rfl⟩

/-- A call of `hipSetupArgument` that returns leaves the runtime context and the kernel
table as they were. -/
theorem hipSetupArgument_keeps_registry (s s1 : State) (mem : Memory) (arg size offset : Nat)
    (h : (hipSetupArgument s mem arg size offset).state? = some s1) :
    s1.hipi_Global = s.hipi_Global ∧ s1.hipi_Kernels = s.hipi_Kernels := by
  obtain ⟨ldata1, rfl⟩ := hipSetupArgument_state s s1 mem arg size offset h
  exact ⟨rfl, rfl⟩

theorem registrations_cons (c : Call) (cs : List Call) :
    registrations (c :: cs) = registrations [c] ++ registrations cs := by
  cases c <;> rfl

/-- One call that returns keeps the registry holding what was registered so far, extended
by the entry of the call when it is a registration. -/
theorem Call.run_registryHolds (drv : Driver) (mem : Memory) (n : Nat) (s s1 : State)
    (regs : List hipi_kernel_s) (c : Call) (hinv : RegistryHolds n s regs)
    (hrun : c.run drv mem s = some s1) : RegistryHolds n s1 (regs ++ registrations [c]) := by
  obtain ⟨g, K, hG, hK, hcount, hlen, hent⟩ := hinv
  cases c with
  | registerFunction fatbin e =>
    simp only [Call.run] at hrun
    by_cases hlt : g.kernel_count < K.length
    · rw [__hipRegisterFunction_state s fatbin e g K hG hK hlt] at hrun
      simp only [Option.some.injEq] at hrun
      subst hrun
      refine ⟨_, _, rfl, rfl, ?_, ?_, ?_⟩
      · simp only [registrations, List.length_append, List.length_cons, List.length_nil, hcount]
      · simp only [List.length_set, hlen]
      · intro k hk
        simp only [registrations, List.length_append, List.length_cons, List.length_nil] at hk
        by_cases hkl : k < regs.length
        · rw [List.getElem?_set_ne (by omega), hent k hkl, List.getElem?_append_left hkl]
        · have hke : k = regs.length := by omega
          subst hke
          rw [hcount, List.getElem?_set_self (by omega)]
          simp only [registrations, List.getElem?_concat_length]
    · rw [__hipRegisterFunction_full s fatbin e g K hG hK hlt] at hrun
      exact absurd hrun (by simp)
  | registerVar a1 a2 a3 a4 a5 a6 a7 a8 =>
    simp only [Call.run, __hipRegisterVar, pure, Result.state?, Option.some.injEq] at hrun
    subst hrun
    exact ⟨g, K, hG, hK, by simpa [registrations] using hcount, hlen,
      by simpa [registrations] using hent⟩
  | configureCall gridDim blockDim smsize stream =>
    obtain ⟨h1, h2⟩ := hipConfigureCall_keeps_registry s s1 gridDim blockDim smsize stream hrun
    exact ⟨g, K, h1.trans hG, h2.trans hK, by simpa [registrations] using hcount, hlen,
      by simpa [registrations] using hent⟩
  | setupArgument arg size offset =>
    obtain ⟨h1, h2⟩ := hipSetupArgument_keeps_registry s s1 mem arg size offset hrun
    exact ⟨g, K, h1.trans hG, h2.trans hK, by simpa [registrations] using hcount, hlen,
      by simpa [registrations] using hent⟩
  | launchByPtr khaddr KID0 =>
    obtain ⟨rc, lg, ef, hr⟩ := Result.state?_eq_some _ s1 hrun
    have := hipLaunchByPtr_returned_state drv s khaddr KID0 rc s1 lg ef hr
    subst this
    exact ⟨g, K, hG, hK, by simpa [registrations] using hcount, hlen,
      by simpa [registrations] using hent⟩

/-- A sequence of calls that all return keeps the registry holding what was registered. -/
theorem runCalls_registryHolds (drv : Driver) (mem : Memory) (n : Nat) :
    ∀ (cs : List Call) (s s1 : State) (regs : List hipi_kernel_s),
      RegistryHolds n s regs → runCalls drv mem s cs = some s1 →
      RegistryHolds n s1 (regs ++ registrations cs) := by
  intro cs
  induction cs with
  | nil =>
    intro s s1 regs hinv hrun
    simp only [runCalls, Option.some.injEq] at hrun
    subst hrun
    simpa [registrations] using hinv
  | cons c cs ih =>
    intro s s1 regs hinv hrun
    simp only [runCalls] at hrun
    cases hc : c.run drv mem s with
    | none => rw [hc] at hrun; exact absurd hrun (by simp)
    | some s2 =>
      rw [hc] at hrun
      have := ih s2 s1 _ (Call.run_registryHolds drv mem n s s2 regs c hinv hc) hrun
      rw [registrations_cons, ← List.append_assoc]
      exact this

/-- C14. Start from a fresh registration (an allocated table, `kernel_count = 0`) and make
any sequence of `__hipRegisterFunction`, `__hipRegisterVar`, `hipConfigureCall`,
`hipSetupArgument` and `hipLaunchByPtr` calls that all return (so every registration is
inside the table). In the state reached, `kernel_count` is the number of
`__hipRegisterFunction` calls made, the capacity of the table is unchanged, and for every
`k < kernel_count` entry `k` holds exactly the nine values passed to the `k`-th
`__hipRegisterFunction` call; `__hipRegisterVar` returns with the globals unchanged. -/
theorem registry_append_only (drv : Driver) (mem : Memory) (s0 s1 : State)
    (g0 : hipi_global_s) (K0 : List hipi_kernel_s) (cs : List Call)
    (hG : s0.hipi_Global = some g0) (hcount : g0.kernel_count = 0)
    (hK : s0.hipi_Kernels = some K0) (hrun : runCalls drv mem s0 cs = some s1) :
    (∃ g K, s1.hipi_Global = some g ∧ s1.hipi_Kernels = some K ∧
      g.kernel_count = (registrations cs).length ∧ K.length = K0.length ∧
      (registrations cs).length ≤ K.length ∧
      ∀ k, k < g.kernel_count → K[k]? = (registrations cs)[k]?) ∧
    ∀ s fatCubinHandle hostVar deviceAddress deviceName ext size constant glob,
      __hipRegisterVar s fatCubinHandle hostVar deviceAddress deviceName ext size constant glob
        = .returned ((), s) [] [] := by
  have h0 : RegistryHolds K0.length s0 [] :=
    ⟨g0, K0, hG, hK, hcount, rfl, fun k hk => absurd hk (Nat.not_lt_zero k)⟩
  obtain ⟨g, K, h1, h2, h3, h4, h5⟩ := runCalls_registryHolds drv mem K0.length cs s0 s1 [] h0 hrun
  simp only [List.nil_append] at h3 h5
  refine ⟨⟨g, K, h1, h2, h3, h4, ?_, ?_⟩, fun _ _ _ _ _ _ _ _ _ => rfl⟩
  · by_contra hgt
    have hlt : K.length < (registrations cs).length := by omega
    have := h5 K.length hlt
    rw [List.getElem?_eq_none (Nat.le_refl _), List.getElem?_eq_getElem hlt] at this
    exact absurd this (by simp)
  · intro k hk
    exact h5 k (by omega)

/-- C14, on the sample sequence of seven calls from the sample registered state. -/
theorem registry_append_only_witness :
    runCalls sampleDriver sampleMemory sampleRegistered sampleCalls = some sampleAfterCalls ∧
    (∃ g K, sampleAfterCalls.hipi_Global = some g ∧ sampleAfterCalls.hipi_Kernels = some K ∧
      g.kernel_count = (registrations sampleCalls).length ∧ K.length = sampleTable.length ∧
      (registrations sampleCalls).length ≤ K.length ∧
      ∀ k, k < g.kernel_count → K[k]? = (registrations sampleCalls)[k]?) ∧
    ∀ s fatCubinHandle hostVar deviceAddress deviceName ext size constant glob,
      __hipRegisterVar s fatCubinHandle hostVar deviceAddress deviceName ext size constant glob
        = .returned ((), s) [] [] :=
  ⟨by decide,
    registry_append_only sampleDriver sampleMemory sampleRegistered sampleAfterCalls sampleGlobal
      sampleTable sampleCalls rfl rfl rfl (by decide)⟩

/-! ## Termination of the walk -/

/-- On a blob that passes both checks the walker is its loop, run from the first Part
Header to the boundary, with the entry and exit lines added to the log. -/
theorem hipi_GetObjForSubarch_valid (fuel : Nat) (s : State) (mem : Memory) (fatbin t : Nat)
    (objsz : Bool) (hvalid : ValidBlob mem fatbin) :
    hipi_GetObjForSubarch fuel s mem fatbin t objsz
      = (walkLoop s.hipi_EnableDebug mem t objsz (boundary mem fatbin) fuel
          (firstPart mem fatbin)).map
          (fun w =>
            ({ w with log :=
                (if s.hipi_EnableDebug then [.text "\n==>DEBUG: hipi_GetObjForSubarch\n"]
                  else []) ++ w.log ++
                (if s.hipi_EnableDebug then [.text "<==EXIT: hipi_GetObjForSubarch\n"]
                  else []) }, s)) := by
  obtain ⟨hm, hv, hm3, hv3⟩ := hvalid
  simp only [hipi_GetObjForSubarch, __hipByPtrFatMAGIC2, __hipByPtrFatMAGIC3, hm, hv, hm3, hv3,
    ne_eq, not_true_eq_false, or_self, if_false, boundary, firstPart]
  cases walkLoop s.hipi_EnableDebug mem t objsz _ fuel _ <;> rfl

theorem ptrAdd_lt (p n : Nat) : ptrAdd p n < 2 ^ 64 :=
  Nat.mod_lt _ (by decide)

/-- Skipping a part moves the cursor by `headerSize + partSize`, modulo `2 ^ 64`. -/
theorem advance_eq_mod (mem : Memory) (p : Nat) :
    advance mem p = (p + ((mem.partheader p).headerSize + (mem.partheader p).partSize)) % 2 ^ 64 := by
  simp only [advance, ptrAdd, Nat.add_assoc, Nat.mod_add_mod]

theorem firstPart_lt (mem : Memory) (fatbin : Nat) : firstPart mem fatbin < 2 ^ 64 :=
  ptrAdd_lt _ _

theorem partAt_lt (mem : Memory) (fatbin j : Nat) : partAt mem fatbin j < 2 ^ 64 := by
  cases j with
  | zero => exact firstPart_lt mem fatbin
  | succ j =>
    simp only [partAt, Function.iterate_succ_apply']
    exact ptrAdd_lt _ _

theorem boundary_sub_le (mem : Memory) (fatbin : Nat) :
    boundary mem fatbin - firstPart mem fatbin
      ≤ (mem.fbheader (mem.fbwrapper fatbin).binary).fatSize := by
  have : boundary mem fatbin
      ≤ firstPart mem fatbin + (mem.fbheader (mem.fbwrapper fatbin).binary).fatSize := by
    unfold boundary ptrAdd
    exact Nat.mod_le _ _
  omega

/-- When every part the cursor reaches before the boundary without a match moves the cursor
forward, the walk from `p` meets its first match within `d` advances or leaves the region
after at most `d` advances, `d` being the distance to the boundary. -/
theorem cursor_search (mem : Memory) (t end_ : Nat) :
    ∀ (d p : Nat), end_ - p ≤ d →
      (∀ j, (∀ i, i ≤ j → (advance mem)^[i] p < end_ ∧
          (mem.partheader ((advance mem)^[i] p)).subarch ≠ t) →
        (advance mem)^[j] p < (advance mem)^[j + 1] p) →
      (∃ k, k < d ∧
        (∀ j, j < k → (advance mem)^[j] p < end_ ∧
          (mem.partheader ((advance mem)^[j] p)).subarch ≠ t) ∧
        (advance mem)^[k] p < end_ ∧ (mem.partheader ((advance mem)^[k] p)).subarch = t) ∨
      (∃ n, n ≤ d ∧
        (∀ j, j < n → (advance mem)^[j] p < end_ ∧
          (mem.partheader ((advance mem)^[j] p)).subarch ≠ t) ∧
        ¬ (advance mem)^[n] p < end_) := by
  intro d
  induction d with
  | zero =>
    intro p hd _
    exact Or.inr ⟨0, Nat.le_refl 0, fun j hj => absurd hj (Nat.not_lt_zero j),
      by simp only [Function.iterate_zero, id_eq]; omega⟩
  | succ d ih =>
    intro p hd hmove
    by_cases hlt : p < end_
    · by_cases htag : (mem.partheader p).subarch = t
      · exact Or.inl ⟨0, Nat.succ_pos d, fun j hj => absurd hj (Nat.not_lt_zero j), hlt, htag⟩
      · have h0 : p < advance mem p := by
          have := hmove 0 (by
            intro i hi
            have hi0 : i = 0 := by omega
            subst hi0
            exact ⟨hlt, htag⟩)
          simpa using this
        have hmove1 : ∀ j, (∀ i, i ≤ j → (advance mem)^[i] (advance mem p) < end_ ∧
              (mem.partheader ((advance mem)^[i] (advance mem p))).subarch ≠ t) →
            (advance mem)^[j] (advance mem p) < (advance mem)^[j + 1] (advance mem p) := by
          intro j hj
          rw [iterate_advance_shift, iterate_advance_shift]
          refine hmove (j + 1) ?_
          intro i hi
          cases i with
          | zero => exact ⟨hlt, htag⟩
          | succ i =>
            rw [← iterate_advance_shift]
            exact hj i (by omega)
        rcases ih (advance mem p) (by omega) hmove1 with
          ⟨k, hk, hbefore, hklt, hktag⟩ | ⟨n, hn, hbefore, hnge⟩
        · refine Or.inl ⟨k + 1, by omega, ?_, ?_, ?_⟩
          · intro j hj
            cases j with
            | zero => exact ⟨hlt, htag⟩
            | succ j =>
              rw [← iterate_advance_shift]
              exact hbefore j (by omega)
          · rw [← iterate_advance_shift]; exact hklt
          · rw [← iterate_advance_shift]; exact hktag
        · refine Or.inr ⟨n + 1, by omega, ?_, ?_⟩
          · intro j hj
            cases j with
            | zero => exact ⟨hlt, htag⟩
            | succ j =>
              rw [← iterate_advance_shift]
              exact hbefore j (by omega)
          · rw [← iterate_advance_shift]; exact hnge
    · exact Or.inr ⟨0, Nat.zero_le _, fun j hj => absurd hj (Nat.not_lt_zero j), hlt⟩

/-- C16. Walker termination. On a blob that passes both checks, if every Part Header the
cursor reaches below the boundary without a match has `headerSize + partSize > 0` and the
cursor sum does not wrap, then with `fatSize` loop iterations allowed (or more) the walker
returns; it has run at most `fatSize` iterations, and it returns either the code object of
the first match, or null once the cursor is no longer below `first_part + fatSize`. -/
theorem hipi_GetObjForSubarch_terminates (s : State) (mem : Memory) (fatbin t : Nat)
    (objsz : Bool) (fuel : Nat) (hvalid : ValidBlob mem fatbin)
    (hadv : ∀ j, NoMatchBefore mem fatbin t (j + 1) →
      0 < (mem.partheader (partAt mem fatbin j)).headerSize
          + (mem.partheader (partAt mem fatbin j)).partSize ∧
      partAt mem fatbin j + (mem.partheader (partAt mem fatbin j)).headerSize
          + (mem.partheader (partAt mem fatbin j)).partSize < 2 ^ 64)
    (hfuel : (mem.fbheader (mem.fbwrapper fatbin).binary).fatSize ≤ fuel) :
    ∃ w, hipi_GetObjForSubarch fuel s mem fatbin t objsz = some (w, s) ∧
      w.partReads.length ≤ (mem.fbheader (mem.fbwrapper fatbin).binary).fatSize ∧
      ((∃ k, ReachesFirstMatch mem fatbin t k ∧ w.partReads.length = k + 1 ∧
          w.hsaco = ptrAdd (partAt mem fatbin k)
            (mem.partheader (partAt mem fatbin k)).headerSize ∧
          w.objszStore =
            (if objsz then some (toUnsigned (mem.partheader (partAt mem fatbin k)).partSize)
             else none)) ∨
       (∃ n, EndsWithoutMatch mem fatbin t n ∧ w.partReads.length = n ∧
          w.hsaco = 0 ∧ w.objszStore = none)) := by
  have hmove : ∀ j, (∀ i, i ≤ j → (advance mem)^[i] (firstPart mem fatbin) < boundary mem fatbin ∧
        (mem.partheader ((advance mem)^[i] (firstPart mem fatbin))).subarch ≠ t) →
      (advance mem)^[j] (firstPart mem fatbin) < (advance mem)^[j + 1] (firstPart mem fatbin) := by
    intro j hj
    obtain ⟨hpos, hnowrap⟩ := hadv j (fun i hi => hj i (by omega))
    rw [Function.iterate_succ_apply', advance_eq_mod]
    unfold partAt at hpos hnowrap
    rw [Nat.mod_eq_of_lt (by omega)]
    omega
  rw [hipi_GetObjForSubarch_valid fuel s mem fatbin t objsz hvalid]
  rcases cursor_search mem t (boundary mem fatbin)
      (mem.fbheader (mem.fbwrapper fatbin).binary).fatSize (firstPart mem fatbin)
      (boundary_sub_le mem fatbin) hmove with
    ⟨k, hk, hbefore, hklt, hktag⟩ | ⟨n, hn, hbefore, hnge⟩
  · obtain ⟨w, hw, hh, ho, hr⟩ := walkLoop_first_match s.hipi_EnableDebug mem t objsz
      (boundary mem fatbin) k fuel (firstPart mem fatbin) hbefore hklt hktag (by omega)
    have hlen : w.partReads.length = k + 1 := by simp [hr]
    rw [hw]
    exact ⟨_, rfl, by show w.partReads.length ≤ _; omega,
      Or.inl ⟨k, ⟨hbefore, hklt, hktag⟩, hlen, hh, ho⟩⟩
  · obtain ⟨w, hw, hh, ho, hr⟩ := walkLoop_no_match s.hipi_EnableDebug mem t objsz
      (boundary mem fatbin) n fuel (firstPart mem fatbin) hbefore hnge (by omega)
    have hlen : w.partReads.length = n := by simp [hr]
    rw [hw]
    exact ⟨_, rfl, by show w.partReads.length ≤ _; omega,
      Or.inr ⟨n, ⟨hbefore, hnge⟩, hlen, hh, ho⟩⟩

/-- C16, on the sample blob with a tag no part carries: `fatSize` is 542 and the walk ends
after three iterations. -/
theorem hipi_GetObjForSubarch_terminates_witness :
    ∃ w, hipi_GetObjForSubarch 542 initialState sampleMemory 100 801 true
        = some (w, initialState) ∧
      w.partReads.length ≤ (sampleMemory.fbheader (sampleMemory.fbwrapper 100).binary).fatSize ∧
      ((∃ k, ReachesFirstMatch sampleMemory 100 801 k ∧ w.partReads.length = k + 1 ∧
          w.hsaco = ptrAdd (partAt sampleMemory 100 k)
            (sampleMemory.partheader (partAt sampleMemory 100 k)).headerSize ∧
          w.objszStore =
            (if true then
              some (toUnsigned (sampleMemory.partheader (partAt sampleMemory 100 k)).partSize)
             else none)) ∨
       (∃ n, EndsWithoutMatch sampleMemory 100 801 n ∧ w.partReads.length = n ∧
          w.hsaco = 0 ∧ w.objszStore = none)) :=
  hipi_GetObjForSubarch_terminates initialState sampleMemory 100 801 true 542 (by decide)
    (by
      intro j h
      by_cases hj : j < 3
      · interval_cases j <;> decide
      · exact absurd (h 3 (by omega)).1 (by decide))
    (by decide)

/-- The loop never returns when every cursor position lies below the boundary at a part
whose tag differs from the target. -/
theorem walkLoop_never (dbg : Bool) (mem : Memory) (t : Nat) (objsz : Bool) (end_ : Nat) :
    ∀ (fuel p : Nat),
      (∀ j, (advance mem)^[j] p < end_ ∧ (mem.partheader ((advance mem)^[j] p)).subarch ≠ t) →
      walkLoop dbg mem t objsz end_ fuel p = none := by
  intro fuel
  induction fuel with
  | zero =>
    intro p h
    have h0 := h 0
    simp only [Function.iterate_zero, id_eq] at h0
    simp only [walkLoop, h0.1, if_true]
  | succ f ih =>
    intro p h
    have h0 := h 0
    simp only [Function.iterate_zero, id_eq] at h0
    rw [walkLoop_skip dbg mem t objsz end_ f p h0.1 h0.2,
      ih (advance mem p) (fun j => by rw [iterate_advance_shift]; exact h (j + 1))]
    rfl

/-- C17 (as stated, refuted). On a valid blob whose only part, reached below the boundary,
has a tag that differs from the target and a part-size field of zero, but a header of 64
bytes, the walker returns "not found" after one iteration. -/
theorem hipi_GetObjForSubarch_zero_partSize_returns :
    ValidBlob sampleZeroPartSize 100 ∧ NoMatchBefore sampleZeroPartSize 100 900 1 ∧
    (sampleZeroPartSize.partheader (partAt sampleZeroPartSize 100 0)).partSize = 0 ∧
    hipi_GetObjForSubarch 1 initialState sampleZeroPartSize 100 900 true
      = some ({ hsaco := 0, objszStore := none, partReads := [216], peeks := [], log := [] },
          initialState) := by
  decide

/-- C17 (amended). On a blob that passes both checks, when the walker reaches below the
boundary, after `k` advances without a match, a Part Header whose tag differs from the
target and whose `headerSize + partSize` is zero modulo `2 ^ 64` (both fields zero, for
one), the cursor no longer moves and the walker loops forever: for every bound `n` on the
loop iterations the walk has not returned. -/
theorem hipi_GetObjForSubarch_stalls (s : State) (mem : Memory) (fatbin t : Nat)
    (objsz : Bool) (k : Nat) (hvalid : ValidBlob mem fatbin)
    (hreach : NoMatchBefore mem fatbin t (k + 1))
    (hzero : ((mem.partheader (partAt mem fatbin k)).headerSize
      + (mem.partheader (partAt mem fatbin k)).partSize) % 2 ^ 64 = 0) :
    ∀ n, hipi_GetObjForSubarch n s mem fatbin t objsz = none := by
  have hfix : advance mem (partAt mem fatbin k) = partAt mem fatbin k := by
    rw [advance_eq_mod, Nat.add_mod, hzero, Nat.add_zero, Nat.mod_mod,
      Nat.mod_eq_of_lt (partAt_lt mem fatbin k)]
  have hall : ∀ j, partAt mem fatbin j < boundary mem fatbin ∧
      (mem.partheader (partAt mem fatbin j)).subarch ≠ t := by
    intro j
    by_cases hj : j < k + 1
    · exact hreach j hj
    · have hjk : partAt mem fatbin j = partAt mem fatbin k := by
        obtain ⟨m, rfl⟩ : ∃ m, j = m + k := ⟨j - k, by omega⟩
        unfold partAt
        rw [Function.iterate_add_apply]
        exact Function.iterate_fixed hfix m
      rw [hjk]
      exact hreach k (Nat.lt_succ_self k)
  intro n
  rw [hipi_GetObjForSubarch_valid n s mem fatbin t objsz hvalid,
    walkLoop_never s.hipi_EnableDebug mem t objsz (boundary mem fatbin) n (firstPart mem fatbin)
      hall]
  rfl

/-- C17 (amended), on a blob whose only part has both size fields zero. -/
theorem hipi_GetObjForSubarch_stalls_witness :
    ValidBlob sampleStalled 100 ∧ NoMatchBefore sampleStalled 100 900 1 ∧
    hipi_GetObjForSubarch 1000 initialState sampleStalled 100 900 true = none :=
  ⟨by decide, by decide,
    hipi_GetObjForSubarch_stalls initialState sampleStalled 100 900 true 0 (by decide)
      (by decide) (by decide) 1000⟩

/-! ## The reads of the walk -/

/-- Every Part Header the loop dereferences lies below the boundary. -/
theorem walkReads_below (mem : Memory) (t end_ : Nat) :
    ∀ (n p a : Nat), a ∈ walkReads mem t end_ n p → a < end_ := by
  intro n
  induction n with
  | zero =>
    intro p a ha
    simp [walkReads] at ha
  | succ n ih =>
    intro p a ha
    by_cases hlt : p < end_
    · by_cases htag : (mem.partheader p).subarch = t
      · simp only [walkReads, hlt, htag, if_true, List.mem_singleton] at ha
        rw [ha]; exact hlt
      · simp only [walkReads, hlt, htag, if_true, if_false, List.mem_cons] at ha
        rcases ha with rfl | ha
        · exact hlt
        · exact ih _ a ha
    · simp [walkReads, hlt] at ha

/-- A walk that returns has read the Part Headers its turns dereference. -/
theorem walkLoop_partReads (dbg : Bool) (mem : Memory) (t : Nat) (objsz : Bool) (end_ : Nat) :
    ∀ (fuel p : Nat) (w : Walk), walkLoop dbg mem t objsz end_ fuel p = some w →
      w.partReads = walkReads mem t end_ fuel p := by
  intro fuel
  induction fuel with
  | zero =>
    intro p w hw
    by_cases hlt : p < end_
    · simp [walkLoop, hlt] at hw
    · simp only [walkLoop, hlt, if_false, Option.some.injEq] at hw
      subst hw
      rfl
  | succ f ih =>
    intro p w hw
    by_cases hlt : p < end_
    · by_cases htag : (mem.partheader p).subarch = t
      · rw [walkLoop_hit dbg mem t objsz end_ f p hlt htag] at hw
        simp only [Option.some.injEq] at hw
        subst hw
        simp only [walkReads, hlt, htag, if_true]
      · rw [walkLoop_skip dbg mem t objsz end_ f p hlt htag] at hw
        cases h1 : walkLoop dbg mem t objsz end_ f (advance mem p) with
        | none => rw [h1] at hw; simp at hw
        | some w1 =>
          rw [h1] at hw
          simp only [Option.map_some', Option.some.injEq] at hw
          subst hw
          simp only [walkReads, hlt, htag, if_true, if_false, Walk.visit]
          rw [ih _ w1 h1]
          rfl
    · rw [walkLoop_done dbg mem t objsz end_ (f + 1) p hlt] at hw
      simp only [Option.some.injEq] at hw
      subst hw
      simp only [walkReads, hlt, if_false]
      rfl

/-- C19. Walker boundary invariant. On a blob that passes both checks, every Part Header
the loop dereferences, within any number of turns, starts strictly below
`first_part + fatSize`; a run that returns has read exactly those headers. When `fatSize`
is 0 no Part Header is read and the walker returns null without a store through `objsz`,
for every target tag and every bound on the iterations. -/
theorem hipi_GetObjForSubarch_reads_below_boundary (s : State) (mem : Memory)
    (fatbin t : Nat) (objsz : Bool) (hvalid : ValidBlob mem fatbin) :
    (∀ n a, a ∈ walkReads mem t (boundary mem fatbin) n (firstPart mem fatbin) →
      a < boundary mem fatbin) ∧
    (∀ fuel w s1, hipi_GetObjForSubarch fuel s mem fatbin t objsz = some (w, s1) →
      w.partReads = walkReads mem t (boundary mem fatbin) fuel (firstPart mem fatbin) ∧
      ∀ a, a ∈ w.partReads → a < boundary mem fatbin) ∧
    ((mem.fbheader (mem.fbwrapper fatbin).binary).fatSize = 0 →
      ∀ fuel, ∃ w, hipi_GetObjForSubarch fuel s mem fatbin t objsz = some (w, s) ∧
        w.hsaco = 0 ∧ w.partReads = [] ∧ w.objszStore = none) := by
  refine ⟨fun n a ha => walkReads_below mem t _ n _ a ha, ?_, ?_⟩
  · intro fuel w s1 h
    rw [hipi_GetObjForSubarch_valid fuel s mem fatbin t objsz hvalid] at h
    cases h1 : walkLoop s.hipi_EnableDebug mem t objsz (boundary mem fatbin) fuel
        (firstPart mem fatbin) with
    | none => rw [h1] at h; simp at h
    | some w1 =>
      rw [h1] at h
      simp only [Option.map_some', Option.some.injEq, Prod.mk.injEq] at h
      obtain ⟨hw, -⟩ := h
      subst hw
      have hr := walkLoop_partReads _ mem t objsz _ fuel _ w1 h1
      refine ⟨hr, ?_⟩
      intro a ha
      exact walkReads_below mem t _ fuel _ a (by rw [← hr]; exact ha)
  · intro hz fuel
    have hb : boundary mem fatbin = firstPart mem fatbin := by
      unfold boundary
      rw [hz]
      unfold ptrAdd
      rw [Nat.add_zero]
      exact Nat.mod_eq_of_lt (firstPart_lt mem fatbin)
    rw [hipi_GetObjForSubarch_valid fuel s mem fatbin t objsz hvalid, hb,
      walkLoop_done _ mem t objsz _ fuel _ (Nat.lt_irrefl _)]
    exact ⟨_, rfl, rfl, rfl, rfl⟩

/-- C19, on a blob whose `fatSize` is 0, with target 900. -/
theorem hipi_GetObjForSubarch_reads_below_boundary_witness :
    (∀ n a, a ∈ walkReads sampleEmptyBlob 900 (boundary sampleEmptyBlob 100) n
        (firstPart sampleEmptyBlob 100) → a < boundary sampleEmptyBlob 100) ∧
    (∀ fuel w s1, hipi_GetObjForSubarch fuel initialState sampleEmptyBlob 100 900 true
        = some (w, s1) →
      w.partReads = walkReads sampleEmptyBlob 900 (boundary sampleEmptyBlob 100) fuel
        (firstPart sampleEmptyBlob 100) ∧
      ∀ a, a ∈ w.partReads → a < boundary sampleEmptyBlob 100) ∧
    ∀ fuel, ∃ w, hipi_GetObjForSubarch fuel initialState sampleEmptyBlob 100 900 true
        = some (w, initialState) ∧
      w.hsaco = 0 ∧ w.partReads = [] ∧ w.objszStore = none :=
  ⟨(hipi_GetObjForSubarch_reads_below_boundary initialState sampleEmptyBlob 100 900 true
      (by decide)).1,
    (hipi_GetObjForSubarch_reads_below_boundary initialState sampleEmptyBlob 100 900 true
      (by decide)).2.1,
    (hipi_GetObjForSubarch_reads_below_boundary initialState sampleEmptyBlob 100 900 true
      (by decide)).2.2 (by decide)⟩

/-! ## The status of the device probe -/

/-- The status code of the probe is the only thing that depends on the values of
`HIPBYPTR_SUCCESS` and `HIPBYPTR_FAIL`. -/
theorem hipi_GetSubarch_codes (c : Constants) (a b : Nat) (drv : Driver) (dbg : Bool)
    (glob : hipi_global_s) :
    (hipi_GetSubarch { c with HIPBYPTR_SUCCESS := a, HIPBYPTR_FAIL := b } drv dbg glob).map
        (fun r => r.2)
      = (hipi_GetSubarch c drv dbg glob).map (fun r => r.2) := by
  by_cases h1 : drv.hipInit 0 = hipSuccess <;>
  by_cases h2 : (drv.hipDeviceGet 0).1 = hipSuccess <;>
  by_cases h3 : (drv.hipCtxCreate 0 (drv.hipDeviceGet 0).2).1 = hipSuccess <;>
  by_cases h4 : (drv.hipGetDeviceProperties (drv.hipDeviceGet 0).2).1 = hipSuccess <;>
  by_cases h5 : intToUnsigned (drv.hipGetDeviceProperties (drv.hipDeviceGet 0).2).2 = 0 <;>
  cases dbg <;>
    simp [hipi_GetSubarch, ErrorCheckHIP, DEBUG, emit, perform, exit, bind, pure, Result.bind,
      Result.prepend, Result.map, h1, h2, h3, h4, h5]

/-- The outcome of `__hipRegisterFatBinary` does not depend on the values of the status
codes the probe returns. -/
theorem __hipRegisterFatBinary_codes (c : Constants) (a b : Nat) (drv : Driver)
    (nccl_debug : Option String) (junk : Nat → hipi_kernel_s) (fuel : Nat) (s : State)
    (mem : Memory) (fatbin : Nat) :
    __hipRegisterFatBinary { c with HIPBYPTR_SUCCESS := a, HIPBYPTR_FAIL := b } drv nccl_debug
        junk fuel s mem fatbin
      = __hipRegisterFatBinary c drv nccl_debug junk fuel s mem fatbin := by
  have h := hipi_GetSubarch_codes c a b drv (hipi_InitDebug nccl_debug) (freshGlobal c)
  unfold freshGlobal at h
  cases hA : hipi_GetSubarch { c with HIPBYPTR_SUCCESS := a, HIPBYPTR_FAIL := b } drv
      (hipi_InitDebug nccl_debug)
      { kernel_count := 0, hip_device := 0, hip_context := 0, hip_module := 0, syncq_len := 0,
        streamq_len := List.replicate c.HIP_MAX_STREAMS 0 } <;>
  cases hB : hipi_GetSubarch c drv (hipi_InitDebug nccl_debug)
      { kernel_count := 0, hip_device := 0, hip_context := 0, hip_module := 0, syncq_len := 0,
        streamq_len := List.replicate c.HIP_MAX_STREAMS 0 } <;>
  rw [hA, hB] at h <;> simp only [Result.map, Result.returned.injEq, Result.exited.injEq,
    reduceCtorEq] at h
  · rename_i v1 l1 e1 v l e
    obtain ⟨h1, h2, h3⟩ := h
    obtain ⟨rc1, r1⟩ := v1
    obtain ⟨rc, r⟩ := v
    simp only at h1
    subst h1 h2 h3
    obtain ⟨g1, sub⟩ := r1
    cases sub with
    | none =>
      simp [__hipRegisterFatBinary, hA, hB, bind, pure, Result.bind, Result.prepend, perform]
    | some t =>
      cases hw : hipi_GetObjForSubarch fuel
          { hipi_EnableDebug := hipi_InitDebug nccl_debug, hipi_Global := some g1,
            hipi_Ldata := some
              { gridDim := ⟨0, 0, 0⟩, blockDim := ⟨0, 0, 0⟩, smsize := 0, stream := 0,
                argstruct := List.replicate c.argstructCapacity 0, argstructsize := 0 },
            hipi_Kernels := s.hipi_Kernels } mem fatbin t true with
      | none =>
        simp [__hipRegisterFatBinary, hA, hB, hw, bind, pure, Result.bind, Result.prepend,
          perform]
      | some ws =>
        obtain ⟨w, s2⟩ := ws
        by_cases h0 : w.hsaco = 0
        · cases hd : hipi_InitDebug nccl_debug <;> rw [hd] at hA hB hw <;>
            simp [__hipRegisterFatBinary, hA, hB, hw, hd, h0, DEBUG, emit, exit, bind, pure,
              Result.bind, Result.prepend, perform]
        · by_cases hl : (drv.hipModuleLoadData w.hsaco).1 = hipSuccess <;>
            cases hd : hipi_InitDebug nccl_debug <;> rw [hd] at hA hB hw <;>
            simp [__hipRegisterFatBinary, hA, hB, hw, hd, h0, hl, hipi_InitGlobal, ErrorCheckHIP,
              DEBUG, emit, exit, bind, pure, Result.bind, Result.prepend, perform]
  · obtain ⟨h1, h2, h3⟩ := h
    subst h1 h2 h3
    simp [__hipRegisterFatBinary, hA, hB, bind, pure, Result.bind, Result.prepend, perform]
  · simp [__hipRegisterFatBinary, hA, hB, bind, pure, Result.bind, Result.prepend, perform]
  · simp [__hipRegisterFatBinary, hA, hB, bind, pure, Result.bind, Result.prepend, perform]

/-- C18. `__hipRegisterFatBinary` ignores the status of the probe. When every runtime call
succeeds and the device reports the sub-architecture `t`, `hipi_GetSubarch` returns
`HIPBYPTR_SUCCESS` for `t ≠ 0` and `HIPBYPTR_FAIL` for `t = 0`; in both cases registration
walks the blob with target `t`, and when the blob has a Part Header tagged `t` (with a
non-null code-object address) that code object is passed to `hipModuleLoadData`, the kernel
table is allocated and the handle `VALCHECK` is returned, the loaded module being the one
the runtime gave: for `t = 0` exactly as for any other tag. The outcome is the same whatever
values the two status codes have. -/
theorem __hipRegisterFatBinary_ignores_probe_status (c : Constants) (drv : Driver)
    (nccl_debug : Option String) (junk : Nat → hipi_kernel_s) (fuel : Nat) (s : State)
    (mem : Memory) (fatbin t k : Nat) (hprobe : ProbeYields drv t)
    (hvalid : ValidBlob mem fatbin) (hreach : ReachesFirstMatch mem fatbin t k)
    (hfuel : k < fuel)
    (hnonnull : ptrAdd (partAt mem fatbin k)
      (mem.partheader (partAt mem fatbin k)).headerSize ≠ 0)
    (hload : (drv.hipModuleLoadData (ptrAdd (partAt mem fatbin k)
      (mem.partheader (partAt mem fatbin k)).headerSize)).1 = hipSuccess) :
    (∃ lg glob, hipi_GetSubarch c drv (hipi_InitDebug nccl_debug) (freshGlobal c)
      = .returned (if t ≠ 0 then c.HIPBYPTR_SUCCESS else c.HIPBYPTR_FAIL, glob, some t) lg
          (probeEffects drv)) ∧
    (t = 0 → ∃ lg glob, hipi_GetSubarch c drv (hipi_InitDebug nccl_debug) (freshGlobal c)
      = .returned (c.HIPBYPTR_FAIL, glob, some 0) lg (probeEffects drv)) ∧
    (∃ lg s1 g1, __hipRegisterFatBinary c drv nccl_debug junk fuel s mem fatbin
        = .returned (c.VALCHECK, s1) lg
            ([.callocGlobal, .callocLdata] ++ probeEffects drv ++
              [.hipModuleLoadData (ptrAdd (partAt mem fatbin k)
                  (mem.partheader (partAt mem fatbin k)).headerSize),
               .mallocKernels c.HIP_MAX_KERNELS]) ∧
      s1.hipi_Global = some g1 ∧ g1.kernel_count = 0 ∧
      g1.hip_module = (drv.hipModuleLoadData (ptrAdd (partAt mem fatbin k)
        (mem.partheader (partAt mem fatbin k)).headerSize)).2 ∧
      s1.hipi_Kernels = some ((List.range c.HIP_MAX_KERNELS).map junk)) ∧
    ∀ a b, __hipRegisterFatBinary { c with HIPBYPTR_SUCCESS := a, HIPBYPTR_FAIL := b } drv
        nccl_debug junk fuel s mem fatbin
      = __hipRegisterFatBinary c drv nccl_debug junk fuel s mem fatbin := by
  obtain ⟨plg, hp⟩ := hipi_GetSubarch_of_probeYields c drv (hipi_InitDebug nccl_debug)
    (freshGlobal c) t hprobe
  refine ⟨⟨plg, _, hp⟩, ?_, ?_, fun a b =>
    __hipRegisterFatBinary_codes c a b drv nccl_debug junk fuel s mem fatbin⟩
  · intro ht
    subst ht
    exact ⟨plg, _, by simpa using hp⟩
  · obtain ⟨hbefore, hlt, htag⟩ := hreach
    have hwalk : ∀ s1 : State, ∃ w, hipi_GetObjForSubarch fuel s1 mem fatbin t true = some (w, s1) ∧
        w.hsaco = ptrAdd (partAt mem fatbin k)
          (mem.partheader (partAt mem fatbin k)).headerSize := by
      intro s1
      obtain ⟨w, hw, hh, -, -⟩ := walkLoop_first_match s1.hipi_EnableDebug mem t true
        (boundary mem fatbin) k fuel (firstPart mem fatbin) hbefore hlt htag hfuel
      rw [hipi_GetObjForSubarch_valid fuel s1 mem fatbin t true hvalid, hw]
      exact ⟨_, rfl, hh⟩
    obtain ⟨w, hw, hh⟩ := hwalk
      { hipi_EnableDebug := hipi_InitDebug nccl_debug,
        hipi_Global := some
          { kernel_count := 0, hip_device := (drv.hipDeviceGet 0).2,
            hip_context := (drv.hipCtxCreate 0 (drv.hipDeviceGet 0).2).2, hip_module := 0,
            syncq_len := 0, streamq_len := List.replicate c.HIP_MAX_STREAMS 0 },
        hipi_Ldata := some
          { gridDim := ⟨0, 0, 0⟩, blockDim := ⟨0, 0, 0⟩, smsize := 0, stream := 0,
            argstruct := List.replicate c.argstructCapacity 0, argstructsize := 0 },
        hipi_Kernels := s.hipi_Kernels }
    rw [← hh] at hnonnull hload
    unfold freshGlobal at hp
    rw [← hh]
    cases hd : hipi_InitDebug nccl_debug <;> rw [hd] at hp hw <;>
      simp [__hipRegisterFatBinary, hd, hp, hw, hnonnull, hload, hipi_InitGlobal, ErrorCheckHIP,
        DEBUG, emit, perform, exit, bind, pure, Result.bind, Result.prepend] <;>
      exact ⟨_, _, ⟨rfl, rfl⟩, _, rfl, rfl, rfl, rfl⟩

/-- C18, on a blob whose first part is tagged 0, with a device that reports
sub-architecture 0. -/
theorem __hipRegisterFatBinary_ignores_probe_status_witness :
    ∃ lg s1 g1, __hipRegisterFatBinary sampleConstants sampleDriverZero none sampleKernel 1
        initialState sampleZeroTag 100
        = .returned (sampleConstants.VALCHECK, s1) lg
            ([.callocGlobal, .callocLdata] ++ probeEffects sampleDriverZero ++
              [.hipModuleLoadData (ptrAdd (partAt sampleZeroTag 100 0)
                  (sampleZeroTag.partheader (partAt sampleZeroTag 100 0)).headerSize),
               .mallocKernels sampleConstants.HIP_MAX_KERNELS]) ∧
      s1.hipi_Global = some g1 ∧ g1.kernel_count = 0 ∧
      g1.hip_module = (sampleDriverZero.hipModuleLoadData (ptrAdd (partAt sampleZeroTag 100 0)
        (sampleZeroTag.partheader (partAt sampleZeroTag 100 0)).headerSize)).2 ∧
      s1.hipi_Kernels = some ((List.range sampleConstants.HIP_MAX_KERNELS).map sampleKernel) :=
  (__hipRegisterFatBinary_ignores_probe_status sampleConstants sampleDriverZero none
    sampleKernel 1 initialState sampleZeroTag 100 0 0 (by decide) (by decide) (by decide)
    (by decide) (by decide) (by decide)).2.2.1

/-! ## The launch request -/

/-- A 32-bit value copied into an `int` and converted back to `unsigned int` is unchanged. -/
theorem intToUnsigned_toInt (n : Nat) : intToUnsigned (toInt n) = n % 2 ^ 32 := by
  have hlt : n % 2 ^ 32 < 2 ^ 32 := Nat.mod_lt _ (by decide)
  unfold intToUnsigned toInt
  split
  · have h : ((n % 2 ^ 32 : Nat) : Int) % 2 ^ 32 = ((n % 2 ^ 32 : Nat) : Int) := by omega
    rw [h, Int.toNat_ofNat]
  · have h : (((n % 2 ^ 32 : Nat) : Int) - 2 ^ 32) % 2 ^ 32 = ((n % 2 ^ 32 : Nat) : Int) := by
      omega
    rw [h, Int.toNat_ofNat]

/-- The launch request of `launchRequest`, field by field. -/
theorem launchRequest_eq (function : Nat) (l : hipi_launchdata_s) :
    launchRequest function l
      = { f := function
          gridDimX := l.gridDim.x % 2 ^ 32
          gridDimY := l.gridDim.y % 2 ^ 32
          gridDimZ := l.gridDim.z % 2 ^ 32
          blockDimX := l.blockDim.x % 2 ^ 32
          blockDimY := l.blockDim.y % 2 ^ 32
          blockDimZ := l.blockDim.z % 2 ^ 32
          sharedMemBytes := (l.smsize % 2 ^ 32).toNat
          stream := 0
          kernelParams := 0
          extra :=
            [.HIP_LAUNCH_PARAM_BUFFER_POINTER, .argstruct l.argstruct,
             .HIP_LAUNCH_PARAM_BUFFER_SIZE, .sizeRef l.argstructsize,
             .HIP_LAUNCH_PARAM_END] } := by
  simp only [launchRequest, intToUnsigned_toInt, toUnsigned]
  rfl

/-- C15 (as stated, refuted). `hipConfigureCall` stages `smsize = 4294967424` (and `-1`) as
given, but the shared-memory size `hipi_Launch` hands to `hipModuleLaunchKernel` is 128 (and
4294967295), not the staged `smsize`: the call converts the staged value to the
`unsigned int` parameter. -/
theorem hipi_Launch_smsize_converted :
    (hipConfigureCall sampleThreeKernels ⟨1, 1, 1⟩ ⟨64, 1, 1⟩ 4294967424 0).state?
      = some (sampleThreeKernels.withLdata
          (configured sampleLdata ⟨1, 1, 1⟩ ⟨64, 1, 1⟩ 4294967424 0)) ∧
    (configured sampleLdata ⟨1, 1, 1⟩ ⟨64, 1, 1⟩ 4294967424 0).smsize = 4294967424 ∧
    ((hipi_Launch sampleDriver false sampleGlobal (sampleKernel 6)
        (configured sampleLdata ⟨1, 1, 1⟩ ⟨64, 1, 1⟩ 4294967424 0)).effects.filterMap
        Effect.launch?).map (fun req => req.sharedMemBytes) = [128] ∧
    ¬ ((hipi_Launch sampleDriver false sampleGlobal (sampleKernel 6)
        (configured sampleLdata ⟨1, 1, 1⟩ ⟨64, 1, 1⟩ 4294967424 0)).effects.filterMap
        Effect.launch?).map (fun req => (req.sharedMemBytes : Int))
      = [(configured sampleLdata ⟨1, 1, 1⟩ ⟨64, 1, 1⟩ 4294967424 0).smsize] ∧
    ((hipi_Launch sampleDriver false sampleGlobal (sampleKernel 6)
        (configured sampleLdata ⟨1, 1, 1⟩ ⟨64, 1, 1⟩ (-1) 0)).effects.filterMap
        Effect.launch?).map (fun req => req.sharedMemBytes) = [4294967295] ∧
    ¬ ((hipi_Launch sampleDriver false sampleGlobal (sampleKernel 6)
        (configured sampleLdata ⟨1, 1, 1⟩ ⟨64, 1, 1⟩ (-1) 0)).effects.filterMap
        Effect.launch?).map (fun req => (req.sharedMemBytes : Int))
      = [(configured sampleLdata ⟨1, 1, 1⟩ ⟨64, 1, 1⟩ (-1) 0).smsize] := by
  decide

/-- C15 (amended). The launch request of `hipi_Launch`, for every resolved entry and every
staging buffer: `hipModuleLaunchKernel` is called exactly when the function is resolved,
once, with the function resolved in the loaded module by the entry's `kernel_name`, the
staged grid and block dimensions as 32-bit values, the staged `smsize` converted to
`unsigned int` (`smsize` modulo `2 ^ 32`), stream 0, null `kernelParams`, and the list
buffer-pointer tag, staged argument buffer, buffer-size tag, staged `argstructsize`, end
tag. For grid and block dimensions below `2 ^ 32` and `0 ≤ smsize < 2 ^ 32` these are the
staged values themselves. The staged stream is never read, so staging buffers that differ
only in the stream give the same call. -/
theorem hipi_Launch_request (drv : Driver) (dbg : Bool) (g : hipi_global_s)
    (e : hipi_kernel_s) (l : hipi_launchdata_s) :
    ((hipi_Launch drv dbg g e l).effects.filterMap Effect.launch?
      = if (drv.hipModuleGetFunction g.hip_module e.kernel_name).1 = hipSuccess then
          [{ f := (drv.hipModuleGetFunction g.hip_module e.kernel_name).2
             gridDimX := l.gridDim.x % 2 ^ 32
             gridDimY := l.gridDim.y % 2 ^ 32
             gridDimZ := l.gridDim.z % 2 ^ 32
             blockDimX := l.blockDim.x % 2 ^ 32
             blockDimY := l.blockDim.y % 2 ^ 32
             blockDimZ := l.blockDim.z % 2 ^ 32
             sharedMemBytes := (l.smsize % 2 ^ 32).toNat
             stream := 0
             kernelParams := 0
             extra :=
               [.HIP_LAUNCH_PARAM_BUFFER_POINTER, .argstruct l.argstruct,
                .HIP_LAUNCH_PARAM_BUFFER_SIZE, .sizeRef l.argstructsize,
                .HIP_LAUNCH_PARAM_END] }]
        else []) ∧
    (l.gridDim.x < 2 ^ 32 → l.gridDim.y < 2 ^ 32 → l.gridDim.z < 2 ^ 32 →
      l.blockDim.x < 2 ^ 32 → l.blockDim.y < 2 ^ 32 → l.blockDim.z < 2 ^ 32 →
      0 ≤ l.smsize → l.smsize < 2 ^ 32 →
      (hipi_Launch drv dbg g e l).effects.filterMap Effect.launch?
        = if (drv.hipModuleGetFunction g.hip_module e.kernel_name).1 = hipSuccess then
            [{ f := (drv.hipModuleGetFunction g.hip_module e.kernel_name).2
               gridDimX := l.gridDim.x
               gridDimY := l.gridDim.y
               gridDimZ := l.gridDim.z
               blockDimX := l.blockDim.x
               blockDimY := l.blockDim.y
               blockDimZ := l.blockDim.z
               sharedMemBytes := l.smsize.toNat
               stream := 0
               kernelParams := 0
               extra :=
                 [.HIP_LAUNCH_PARAM_BUFFER_POINTER, .argstruct l.argstruct,
                  .HIP_LAUNCH_PARAM_BUFFER_SIZE, .sizeRef l.argstructsize,
                  .HIP_LAUNCH_PARAM_END] }]
          else []) ∧
    ∀ stream, hipi_Launch drv dbg g e { l with stream := stream } = hipi_Launch drv dbg g e l := by
  have hmain : (hipi_Launch drv dbg g e l).effects.filterMap Effect.launch?
      = if (drv.hipModuleGetFunction g.hip_module e.kernel_name).1 = hipSuccess then
          [launchRequest (drv.hipModuleGetFunction g.hip_module e.kernel_name).2 l]
        else [] := by
    rcases hipi_Launch_cases drv dbg g e l with ⟨lg, hne, h⟩ | ⟨lg, hok, -, h⟩ | ⟨lg, hok, -, h⟩
    · rw [h, if_neg hne]
      rfl
    · rw [h, if_pos hok]
      rfl
    · rw [h, if_pos hok]
      rfl
  refine ⟨?_, ?_, fun _ => rfl⟩
  · rw [hmain, launchRequest_eq]
  · intro hx hy hz hbx hby hbz h0 h1
    rw [hmain, launchRequest_eq, Nat.mod_eq_of_lt hx, Nat.mod_eq_of_lt hy, Nat.mod_eq_of_lt hz,
      Nat.mod_eq_of_lt hbx, Nat.mod_eq_of_lt hby, Nat.mod_eq_of_lt hbz, Int.emod_eq_of_lt h0 h1]

/-- C15 (amended), on the sample runtime, for the entry with identity 6 and a staged 3x2x1
grid with 128 bytes of shared memory and stream 9. -/
theorem hipi_Launch_request_witness :
    (hipi_Launch sampleDriver false sampleGlobal (sampleKernel 6)
        (configured sampleLdata ⟨3, 2, 1⟩ ⟨64, 1, 1⟩ 128 9)).effects.filterMap Effect.launch?
      = if (sampleDriver.hipModuleGetFunction sampleGlobal.hip_module
            (sampleKernel 6).kernel_name).1 = hipSuccess then
          [{ f := (sampleDriver.hipModuleGetFunction sampleGlobal.hip_module
                (sampleKernel 6).kernel_name).2
             gridDimX := 3
             gridDimY := 2
             gridDimZ := 1
             blockDimX := 64
             blockDimY := 1
             blockDimZ := 1
             sharedMemBytes := (128 : Int).toNat
             stream := 0
             kernelParams := 0
             extra :=
               [.HIP_LAUNCH_PARAM_BUFFER_POINTER, .argstruct sampleLdata.argstruct,
                .HIP_LAUNCH_PARAM_BUFFER_SIZE, .sizeRef 0,
                .HIP_LAUNCH_PARAM_END] }]
        else [] :=
  (hipi_Launch_request sampleDriver false sampleGlobal (sampleKernel 6)
    (configured sampleLdata ⟨3, 2, 1⟩ ⟨64, 1, 1⟩ 128 9)).2.1 (by decide) (by decide) (by decide)
    (by decide) (by decide) (by decide) (by decide) (by decide)

/-! ## The debug flag and the loads it adds -/

/-- C10 (the code at a failing input). Readable memory ends at address 1002 and a two-byte
argument is stored at 1000..1001. With `hipi_EnableDebug` clear,
`hipSetupArgument(1000, 2, 0)` copies the two bytes and returns `hipSuccess`; with the flag
set the same call loads the eight bytes of `*arg` for its log line, six of them past the
argument, and has no defined behaviour. In the walker too the flag adds loads: on the
sample blob the run with the flag set reads the leading words at 280 and 444, the run with
the flag clear reads neither. -/
theorem debug_flag_changes_outcome :
    sampleShortArgument.canLoad 1000 2 = true ∧
    (hipSetupArgument (sampleThreeKernels.withDebug false) sampleShortArgument 1000 2 0).map
        (fun r => r.1) = .returned hipSuccess [] [] ∧
    hipSetupArgument (sampleThreeKernels.withDebug true) sampleShortArgument 1000 2 0
      = .undefined ∧
    (hipi_GetObjForSubarch 2 (initialState.withDebug false) sampleMemory 100 900 true).map
        (fun r => r.1.peeks) = some [] ∧
    (hipi_GetObjForSubarch 2 (initialState.withDebug true) sampleMemory 100 900 true).map
        (fun r => r.1.peeks) = some [280, 444] := by
  decide

end HipLaunchByPtr
